import Mathlib

/-!
Verification development for the multi-turn text-to-SQL engine
(`backend/database.py`, `backend/tools/execute_sql.py`,
`backend/agents/sql_agent_graph.py`).

The Python code is shallowly embedded: every node of the LangGraph workflow
becomes a Lean function from the agent state (plus the external inputs the
node consumes: LLM completions, tool results, database answers) to the agent
state.  External collaborators (the LLM, the sqlite driver, the semantic
column index, the `re`/`json` standard-library parsing pipeline and the BM25
scorer) are modelled as oracle parameters, exactly at the call boundary the
source uses them.  Strings are Lean `String`s and all string operations used
by the embedding are defined here over `String.data` so that every definition
evaluates inside the kernel.
-/

-- ===========================================================================
-- String utilities (Python `str` operations used by the source)
-- ===========================================================================

/-- Python `s.lower()`: character-wise lower-casing. -/
def lowerS (s : String) : String := ⟨s.data.map Char.toLower⟩

/-- Python `s.upper()`: character-wise upper-casing. -/
def upperS (s : String) : String := ⟨s.data.map Char.toUpper⟩

/-- Python `pat in text` on lists of characters: `pat` occurs contiguously. -/
def containsSub (pat : List Char) : List Char → Bool
  | [] => pat.isEmpty
  | c :: rest => pat.isPrefixOf (c :: rest) || containsSub pat rest

/-- Python `pat in s` (substring test). -/
def subS (pat s : String) : Bool := containsSub pat.data s.data

/-- Python `s.startswith(pat)`. -/
def startsS (pat s : String) : Bool := pat.data.isPrefixOf s.data

/-- Python `s.strip()` (whitespace trimming at both ends). -/
def trimS (s : String) : String :=
  ⟨((s.data.dropWhile Char.isWhitespace).reverse.dropWhile Char.isWhitespace).reverse⟩

/-- Python `s.split(sep)` for a one-character separator. -/
def splitOnC (sep : Char) : List Char → List (List Char)
  | [] => [[]]
  | c :: rest =>
    let r := splitOnC sep rest
    if c = sep then [] :: r
    else
      match r with
      | [] => [[c]]
      | h :: t => (c :: h) :: t

/-- Python `s.split(sep)` returning strings. -/
def splitS (sep : Char) (s : String) : List String :=
  (splitOnC sep s.data).map String.mk

/-- Python `text.replace(pat, "")`: delete every (left-to-right,
non-overlapping) occurrence of `pat`.  The fuel argument (instantiated
with the text length, an upper bound on the number of steps) keeps the
recursion structural. -/
def replaceDelFuel (pat : List Char) : Nat → List Char → List Char
  | 0, _ => []
  | _ + 1, [] => []
  | fuel + 1, c :: rest =>
    if pat ≠ [] ∧ pat.isPrefixOf (c :: rest) then
      replaceDelFuel pat fuel (rest.drop (pat.length - 1))
    else c :: replaceDelFuel pat fuel rest

/-- Python `s.replace(pat, "")` on strings. -/
def replaceDel (pat s : String) : String :=
  ⟨replaceDelFuel pat.data s.data.length s.data⟩

/-- Python `sep.join(parts)`. -/
def joinSep (sep : String) : List String → String
  | [] => ""
  | [x] => x
  | x :: y :: xs => x ++ sep ++ joinSep sep (y :: xs)

-- ===========================================================================
-- Schema graph and join-path search (`Database.build_schema_graph`,
-- `Database.find_shortest_path` in backend/database.py)
-- ===========================================================================

/-- Undirected schema graph: nodes are `table.column` strings, edges come
from same-table column pairs and declared foreign keys. -/
structure Graph where
  nodes : List String
  edges : List (String × String)
deriving DecidableEq

/-- Undirected adjacency over the edge list. -/
def Graph.adjB (G : Graph) (u v : String) : Bool :=
  G.edges.any (fun e => (e.1 = u ∧ e.2 = v) || (e.1 = v ∧ e.2 = u))

/-- Well-formed graph: edge endpoints are nodes, and the node list has no
duplicates (one node per distinct `table.column`, as in the source where
`G.add_node` keys nodes by name). -/
def Graph.WF (G : Graph) : Prop :=
  (∀ e ∈ G.edges, e.1 ∈ G.nodes ∧ e.2 ∈ G.nodes) ∧ G.nodes.Nodup

/-- One table of the introspected schema. -/
structure TableInfo where
  name : String
  columns : List String
deriving DecidableEq

/-- One declared foreign key. -/
structure FKInfo where
  from_table : String
  from_column : String
  to_table : String
  to_column : String
deriving DecidableEq

/-- `f"{table}.{column}"` node naming of the source. -/
def colNode (t c : String) : String := t ++ "." ++ c

/-- All unordered pairs of a list, in order (the source's nested
`for i, col1 ... for col2 in col_names[i+1:]` loop). -/
def listPairs {α : Type} : List α → List (α × α)
  | [] => []
  | x :: xs => (xs.map (fun y => (x, y))) ++ listPairs xs

/-- Embedding of `Database.build_schema_graph`: one node per column,
`same_table` edges between every pair of columns of one table, and one
`foreign_key` edge per declared relationship.  `nx.add_edge` silently adds
missing endpoints as nodes, hence the node list also collects foreign-key
endpoints. -/
def build_schema_graph (tables : List TableInfo) (fks : List FKInfo) : Graph :=
  let colNodes := tables.flatMap (fun t => t.columns.map (colNode t.name))
  let fkEdges := fks.map (fun fk =>
    (colNode fk.from_table fk.from_column, colNode fk.to_table fk.to_column))
  let sameTable := tables.flatMap (fun t => listPairs (t.columns.map (colNode t.name)))
  { nodes := (colNodes ++ fkEdges.flatMap (fun e => [e.1, e.2])).dedup
    edges := sameTable ++ fkEdges }

/-- Modelled from the spec: the breadth-first layer ("ball") expansion of
`nx.shortest_path`'s unweighted BFS, which `Database.find_shortest_path`
delegates to (networkx is an external dependency; the spec fixes its
behavior as "standard unweighted breadth-first shortest path").  `expand`
adds every node adjacent to the current layer set. -/
def expand (G : Graph) (s : List String) : List String :=
  s ++ G.nodes.filter (fun v => !s.contains v && s.any (fun u => G.adjB u v))

/-- Modelled from the spec: all nodes within BFS distance `n` of `a`. -/
def ball (G : Graph) (a : String) : Nat → List String
  | 0 => [a]
  | n + 1 => expand G (ball G a n)

/-- Modelled from the spec: reconstruct one BFS shortest path ending at `b`,
walking back through the layers. -/
def pathTo (G : Graph) (a : String) : Nat → String → List String
  | 0, b => [b]
  | n + 1, b =>
    if (ball G a n).contains b then pathTo G a n b
    else
      match (ball G a n).find? (fun u => G.adjB u b) with
      | some u => pathTo G a n u ++ [b]
      | none => []

/-- Modelled from the spec: first BFS layer index containing `b`, scanning
`n, n+1, ...` with the given fuel. -/
def firstHit (G : Graph) (a b : String) : Nat → Nat → Option Nat
  | 0, _ => none
  | fuel + 1, n =>
    if (ball G a n).contains b then some n else firstHit G a b fuel (n + 1)

/-- Failure of the path search.  `nx.shortest_path` raises
`nx.NodeNotFound` when either endpoint is not a node of the graph;
`Database.find_shortest_path` catches only `nx.NetworkXNoPath`, so a
`NodeNotFound` propagates to the caller. -/
inductive PathError where
  | nodeNotFound
deriving DecidableEq

/-- Embedding of `Database.find_shortest_path`: BFS shortest path between
two `table.column` nodes.  Both endpoints present and connected: the path.
Both present but disconnected: `nx.NetworkXNoPath` is caught and `[]` is
returned.  Either endpoint absent: `nx.NodeNotFound` is not caught and the
call raises (`Except.error`). -/
def find_shortest_path (G : Graph) (a b : String) : Except PathError (List String) :=
  if G.nodes.contains a && G.nodes.contains b then
    match firstHit G a b (G.nodes.length + 1) 0 with
    | some n => .ok (pathTo G a n b)
    | none => .ok []
  else .error .nodeNotFound

/-- Bool-valued adjacency chain along a node list. -/
def chainAdjB (G : Graph) : List String → Bool
  | [] => true
  | [_] => true
  | u :: v :: rest => G.adjB u v && chainAdjB G (v :: rest)

/-- A node sequence that is a genuine path of `G` from `a` to `b`. -/
def IsPathList (G : Graph) (p : List String) (a b : String) : Prop :=
  p.head? = some a ∧ p.getLast? = some b ∧ chainAdjB G p = true

/-- Connectivity: some path joins `a` to `b`. -/
def Connected (G : Graph) (a b : String) : Prop :=
  ∃ p, IsPathList G p a b

/-- Walks built up from the front: `WalkF G a b n` is a walk of `n` edges
from `a` to `b`. -/
inductive WalkF (G : Graph) : String → String → Nat → Prop
  | nil (a : String) : WalkF G a a 0
  | cons {a u b : String} {n : Nat} :
      G.adjB a u = true → WalkF G u b n → WalkF G a b (n + 1)

-- ===========================================================================
-- Value search (`Database.search_values` in backend/database.py)
-- ===========================================================================

/-- One column of the database as seen by `search_values`: its declared
type and the distinct non-null, non-empty values the `SELECT DISTINCT ...
LIMIT 1000` query returns for it (the sqlite driver is external, so the
fetched value list is part of the model's input). -/
structure SVColumn where
  name : String
  type : String
  values : List String
deriving DecidableEq

/-- One table with its columns. -/
structure SVTable where
  name : String
  columns : List SVColumn
deriving DecidableEq

/-- The database contents visible to `search_values`. -/
structure SVDatabase where
  tables : List SVTable
deriving DecidableEq

/-- The source's text-column test:
`'TEXT' in col_type or 'VARCHAR' in col_type or 'CHAR' in col_type`
on the upper-cased declared type. -/
def isTextType (ty : String) : Bool :=
  subS "TEXT" (upperS ty) || subS "VARCHAR" (upperS ty) || subS "CHAR" (upperS ty)

/-- A candidate value produced by the substring pre-filter (the source's
dictionaries carry `contents`/`table`/`column`, plus internal `text` and
`score` fields dropped before returning). -/
structure Candidate where
  contents : String
  table : String
  column : String
deriving DecidableEq

/-- A candidate together with its BM25 score (the internal ranking
artifact).  Scores are modelled as rationals; `BM25Okapi.get_scores` is an
external library call and enters the model as an oracle. -/
structure ScoredCandidate where
  contents : String
  table : String
  column : String
  score : ℚ
deriving DecidableEq

/-- The tables `search_values` scans: the scoped table when given
(`get_columns` of an unknown table yields nothing), else all tables. -/
def svTablesToSearch (db : SVDatabase) (table? : Option String) : List SVTable :=
  match table? with
  | some t => db.tables.filter (fun tb => tb.name = t)
  | none => db.tables

/-- The column names `search_values` scans in one table. -/
def svColsToSearch (tb : SVTable) (column? : Option String) : List String :=
  match column? with
  | some c => [c]
  | none => tb.columns.map (·.name)

/-- Candidates of one column: the source looks the name up in the table's
column metadata (skipping unknown names), keeps only text-typed columns,
and keeps each value containing the query as a case-insensitive
substring. -/
def svColCandidates (tb : SVTable) (query cn : String) : List Candidate :=
  match tb.columns.find? (fun ci => ci.name = cn) with
  | none => []
  | some ci =>
    if isTextType ci.type then
      ci.values.filterMap (fun v =>
        if subS (lowerS query) (lowerS v) then some ⟨v, tb.name, cn⟩ else none)
    else []

/-- Candidate collection phase of `Database.search_values`. -/
def svCandidates (db : SVDatabase) (query : String)
    (table? column? : Option String) : List Candidate :=
  (svTablesToSearch db table?).flatMap (fun tb =>
    (svColsToSearch tb column?).flatMap (svColCandidates tb query))

/-- Ranking phase of `Database.search_values`: attach the BM25 score of each
candidate (by its position, as `get_scores` does) and sort by descending
score (`sort(key=..., reverse=True)`, a stable sort). -/
def search_values_scored (db : SVDatabase) (query : String)
    (table? column? : Option String) (scores : Nat → ℚ) : List ScoredCandidate :=
  let cands := svCandidates db query table? column?
  (cands.enum.map (fun p => ⟨p.2.contents, p.2.table, p.2.column, scores p.1⟩)).mergeSort
    (fun x y => decide (y.score ≤ x.score))

/-- Embedding of `Database.search_values`: empty when no candidate passes
the substring pre-filter, otherwise the top `limit` candidates by
descending BM25 score, with the internal `text`/`score` fields dropped. -/
def search_values (db : SVDatabase) (query : String)
    (table? column? : Option String) (limit : Nat) (scores : Nat → ℚ) : List Candidate :=
  if (svCandidates db query table? column?).isEmpty then []
  else
    ((search_values_scored db query table? column? scores).take limit).map
      (fun c => ⟨c.contents, c.table, c.column⟩)

-- ===========================================================================
-- ExecuteSQL tool (`ExecuteSQLTool._run` in backend/tools/execute_sql.py)
-- ===========================================================================

/-- One result row; cells are modelled as strings (a sqlite tuple rendered
cell by cell). -/
abbrev Row := List String

/-- Embedding of `ExecuteSQLTool._run`.  The argument is the outcome of
`self.database.execute_query(sql)`: `.ok rows`, or `.error msg` when the
query raised (with `msg` the exception text, already including
`Database.execute_query`'s `"SQL execution error: ..."` wrapping).  The
tool never raises: errors become a one-tuple row, and results beyond 100
rows are truncated with a marker tuple. -/
def executeSQLTool_run (outcome : Except String (List Row)) : List Row :=
  match outcome with
  | .ok results =>
    if results.length > 100 then results.take 100 ++ [["... (truncated)"]]
    else results
  | .error e => [["Error: " ++ e]]

/-- Python `repr` of a string cell (simplified to single-quote wrapping;
cells here never contain quotes). -/
def pyReprCell (s : String) : String := "'" ++ s ++ "'"

/-- Python `str` of one tuple: `('a',)` for singletons, `('a', 'b')`
otherwise. -/
def pyStrRow (r : Row) : String :=
  match r with
  | [c] => "(" ++ pyReprCell c ++ ",)"
  | cs => "(" ++ joinSep ", " (cs.map pyReprCell) ++ ")"

/-- Python `str` of the row list, as `sql_execution_node` computes
`result_str = str(result)`. -/
def pyStrRows (rows : List Row) : String :=
  "[" ++ joinSep ", " (rows.map pyStrRow) ++ "]"

/-- The execution node's error marker test on the rendered result:
`"Error:" in result_str or "error:" in result_str.lower()`. -/
def execLooksError (rows : List Row) : Bool :=
  subS "Error:" (pyStrRows rows) || subS "error:" (lowerS (pyStrRows rows))

-- ===========================================================================
-- Workflow state (`AgentState` in backend/agents/sql_agent_graph.py)
-- ===========================================================================

/-- A relevant-column entry as the workflow stores it. -/
structure ColInfo where
  table_name : String
  column_name : String
  data_type : String
  statistics : String
deriving DecidableEq

/-- A normalized join path (`_normalize_path` output). -/
structure PathDict where
  path : List String
  full_path : String
deriving DecidableEq

/-- Embedding of the `AgentState` TypedDict.  `sql_queries` and `messages`
are declared as accumulating channels (`Annotated[..., operator.add]`):
the generation node's `"sql_queries": [sql_query]` update appends one
element.  LangGraph's channel plumbing itself is an external, unpinned
dependency; the embedding applies the declared reducer to the one key a
node explicitly updates (the source's visible intent), and treats the
`{**state, ...}` pass-through of the remaining keys as leaving their
channels unchanged.  `execution_result` is `None` or the executed rows. -/
structure AgentState where
  question : String
  schema_summary : String
  current_step : String
  iteration : Nat
  max_iterations : Nat
  plan : String
  required_actions : List String
  relevant_columns : List ColInfo
  relevant_values : List Candidate
  join_paths : List PathDict
  sql_query : String
  sql_queries : List String
  selected_path_indices : List Int
  path_selection_reasoning : String
  execution_result : Option (List Row)
  execution_error : String
  needs_column_search : Bool
  needs_value_search : Bool
  needs_path_finding : Bool
  needs_sql_generation : Bool
  ready_to_execute : Bool
  path_finding_deferred : Bool
  path_finding_failed : Bool
  path_finding_errors : List String
  single_table_with_join_indicators : Bool
  needs_human_input : Bool
  human_feedback : String
  awaiting_confirmation : Bool
  confirmation_type : String
  final_answer : String
  messages : List String

/-- Python truthiness of `execution_result`: `None` and `[]` are falsy. -/
def resultTruthy : Option (List Row) → Bool
  | some (_ :: _) => true
  | _ => false

/-- The initial state dictionary of `SQLAgentWorkflow.query`. -/
def initialState (question schema_summary : String) (max_iterations : Nat) : AgentState :=
  { question := question
    schema_summary := schema_summary
    current_step := "start"
    iteration := 0
    max_iterations := max_iterations
    plan := ""
    required_actions := []
    relevant_columns := []
    relevant_values := []
    join_paths := []
    sql_query := ""
    sql_queries := []
    selected_path_indices := []
    path_selection_reasoning := ""
    execution_result := none
    execution_error := ""
    needs_column_search := false
    needs_value_search := false
    needs_path_finding := false
    needs_sql_generation := false
    ready_to_execute := false
    path_finding_deferred := false
    path_finding_failed := false
    path_finding_errors := []
    single_table_with_join_indicators := false
    needs_human_input := false
    human_feedback := ""
    awaiting_confirmation := false
    confirmation_type := ""
    final_answer := ""
    messages := [] }

-- ===========================================================================
-- Workflow nodes (SQLAgentWorkflow in backend/agents/sql_agent_graph.py)
-- ===========================================================================

/-- Embedding of `planning_node`.  `content` is the LLM completion; the node
scans its lines for the `PLAN:`/`ACTIONS:` two-line format (later matching
lines override earlier ones, as in the source's loop). -/
def planning_node (s : AgentState) (content : String) : AgentState :=
  let parsed : String × List String :=
    (splitS '\n' content).foldl
      (fun acc line =>
        if startsS "PLAN:" line then ((trimS (replaceDel "PLAN:" line)), acc.2)
        else if startsS "ACTIONS:" line then
          (acc.1, (splitS ',' (trimS (replaceDel "ACTIONS:" line))).map trimS)
        else acc)
      ("", [])
  { s with
    plan := parsed.1
    required_actions := parsed.2
    needs_column_search := parsed.2.contains "SearchColumn"
    needs_value_search := parsed.2.contains "SearchValue"
    needs_path_finding := parsed.2.contains "FindShortestPath"
    needs_sql_generation := true
    current_step := "planning_complete"
    awaiting_confirmation := true
    confirmation_type := "plan"
    messages := s.messages ++ ["Plan and required actions"] }

/-- Raw column metadata from `database.get_all_columns()`. -/
structure DBColMeta where
  table : String
  column : String
  type : String
deriving DecidableEq

/-- External inputs of `column_search_node`: the flattened `SearchColumn`
tool results for the LLM-derived queries, the database's full column list
(used by the `< 3` fallback), and `get_column_statistics` per column. -/
structure ColOracle where
  results : List ColInfo
  dbAllColumns : List DBColMeta
  stats : String → String → String

/-- The relevant-column list `column_search_node` stores: the flattened
tool results, extended by the up-to-50-column database fallback when fewer
than 3 results came back. -/
def columnSearchResults (o : ColOracle) : List ColInfo :=
  if o.results.length < 3 then
    o.results ++ (o.dbAllColumns.take 50).map
      (fun m => ⟨m.table, m.column, m.type, o.stats m.table m.column⟩)
  else o.results

/-- Embedding of `column_search_node` (the `SearchColumn` tool is wired in,
as in every deployment of the workflow).  On a retry (non-empty
`execution_error`) the node folds the error into the search prompt —
prompt-only — and resets `needs_value_search`/`needs_path_finding`. -/
def column_search_node (s : AgentState) (o : ColOracle) : AgentState :=
  { s with
    relevant_columns := columnSearchResults o
    needs_column_search := false
    needs_value_search := if s.execution_error = "" then s.needs_value_search else false
    needs_path_finding := if s.execution_error = "" then s.needs_path_finding else false
    current_step := "column_search_complete"
    messages := s.messages ++ ["Found relevant columns"] }

/-- External inputs of `value_search_node`: the LLM completion listing the
values to look up, and the accumulated `SearchValue` tool results (tool
errors are swallowed by the source, so only the surviving results enter the
state). -/
structure ValOracle where
  content : String
  results : List Candidate

/-- Embedding of `value_search_node`: the literal sentinel `NONE` (or an
empty completion) skips the search, otherwise the tool results replace
`relevant_values`. -/
def value_search_node (s : AgentState) (o : ValOracle) : AgentState :=
  if trimS o.content = "NONE" ∨ trimS o.content = "" then
    { s with
      needs_value_search := false
      current_step := "value_search_skipped" }
  else
    { s with
      relevant_values := o.results
      needs_value_search := false
      current_step := "value_search_complete"
      messages := s.messages ++ ["Found relevant values"] }

/-- The source's join-indicating keyword list. -/
def joinKeywords : List String :=
  ["who played", "who scored", "which team", "players in",
   "matches with", "teams that", "players who", "games where",
   "between", "along with", "together with", "associated with",
   "belonging to", "owned by", "managed by", "working on",
   "during", "before", "after", "when", "where"]

/-- The source's relationship-indicator list. -/
def relationshipIndicators : List String :=
  ["and their", "with their", "including their", "along with"]

/-- Distinct tables named by the relevant columns (the source's
`set()` of `table_name`s; every entry of the typed state carries both
keys). -/
def tablesOf (cols : List ColInfo) : List String :=
  (cols.map (·.table_name)).dedup

/-- External inputs of `path_finding_node`: the normalized
`FindShortestPath` tool results for the consecutive table pairs, and the
error strings of failed tool calls. -/
structure PathOracle where
  paths : List PathDict
  errors : List String

/-- Embedding of `path_finding_node` with its decision policy: skip for a
genuinely single-table question; defer when join indicators exist but only
one table is known; otherwise record the found paths, flagging
`path_finding_failed` when the planner required paths and none were
found. -/
def path_finding_node (s : AgentState) (o : PathOracle) : AgentState :=
  let tables := tablesOf s.relevant_columns
  let planningRequiresPath := s.required_actions.contains "FindShortestPath"
  let hasJoinKeywords := joinKeywords.any (fun k => subS k (lowerS s.question))
  let suggestsRel := relationshipIndicators.any (fun k => subS k (lowerS s.question))
  if tables.length < 2 ∧ ¬planningRequiresPath ∧ ¬hasJoinKeywords ∧ ¬suggestsRel then
    { s with
      needs_path_finding := false
      current_step := "path_finding_skipped" }
  else if tables.length < 2 then
    { s with
      needs_path_finding := false
      path_finding_deferred := true
      single_table_with_join_indicators := true
      current_step := "path_finding_deferred"
      messages := s.messages ++ ["Path finding deferred"] }
  else if planningRequiresPath ∧ o.paths.length = 0 then
    { s with
      join_paths := []
      path_finding_failed := true
      path_finding_errors := o.errors
      needs_path_finding := false
      current_step := "path_finding_failed"
      messages := s.messages ++ ["Path finding failed"] }
  else
    { s with
      join_paths := o.paths
      path_finding_failed := false
      needs_path_finding := false
      current_step := "path_finding_complete"
      messages := s.messages ++ ["Found join paths"] }

/-- The source's `_is_join_related_error` indicator list. -/
def joinErrorIndicators : List String :=
  ["no such column", "ambiguous column", "unknown column",
   "table not found", "cannot find table", "cross join",
   "cartesian product", "missing join", "foreign key"]

/-- Embedding of `_is_join_related_error`. -/
def is_join_related_error (e : String) : Bool :=
  joinErrorIndicators.any (fun k => subS k (lowerS e))

/-- The structured generation response after `json.loads`, with the three
fields the source reads via `parsed.get(...)` (absent keys become
`none`). -/
structure Jsonish where
  selected_paths : Option (List Int)
  reasoning : Option String
  sql : Option String

/-- External inputs of `sql_generation_node`: the LLM completion, the
standard-library parsing pipeline (`re` code-fence extraction,
trailing-comma repair and `json.loads`, abstracted as one function that is
`none` exactly on `json.JSONDecodeError`/`AttributeError`), and the
join paths `_perform_fallback_path_finding` would discover (empty when it
returns `{}` or finds nothing). -/
structure GenOracle where
  response : String
  parse : String → Option Jsonish
  fallbackPaths : List PathDict

/-- The source's fallback cleanup of an unparseable completion: markdown
code fences are removed when the text starts with one, then the text is
trimmed. -/
def fenceClean (t : String) : String :=
  if startsS "```sql" t then trimS (replaceDel "```" (replaceDel "```sql" t))
  else if startsS "```" t then trimS (replaceDel "```" t)
  else t

/-- The generation node's inline fallback path finding: when the previous
execution error is join-related (or path finding was deferred) and no join
paths are known, a discovered non-empty path set is stored and the
deferral flag cleared (`fallback_result.get("join_paths")` must be
truthy). -/
def gen_fallback_update (s : AgentState) (o : GenOracle) : AgentState :=
  if s.execution_error ≠ "" ∧ is_join_related_error s.execution_error = true
      ∧ s.join_paths = [] then
    if o.fallbackPaths = [] then s
    else { s with join_paths := o.fallbackPaths, path_finding_deferred := false }
  else if s.path_finding_deferred = true ∧ s.join_paths = [] then
    if o.fallbackPaths = [] then s
    else { s with join_paths := o.fallbackPaths, path_finding_deferred := false }
  else s

/-- Embedding of `sql_generation_node`, continued: structured generation
with a tolerant parse whose failure falls back to the raw trimmed
completion as SQL.  The new SQL is appended to `sql_queries` and the
iteration counter increments here, once. -/
def sql_generation_node (s : AgentState) (o : GenOracle) : AgentState :=
  let s1 := gen_fallback_update s o
  let response_text := trimS o.response
  match o.parse response_text with
  | some j =>
    let q := j.sql.getD ""
    { s1 with
      sql_query := q
      sql_queries := s1.sql_queries ++ [q]
      selected_path_indices := j.selected_paths.getD []
      path_selection_reasoning := j.reasoning.getD "No reasoning provided"
      needs_sql_generation := false
      ready_to_execute := false
      awaiting_confirmation := true
      confirmation_type := "sql"
      iteration := s1.iteration + 1
      current_step := "sql_generated"
      messages := s1.messages ++ ["Generated SQL"] }
  | none =>
    let q := fenceClean response_text
    { s1 with
      sql_query := q
      sql_queries := s1.sql_queries ++ [q]
      selected_path_indices := []
      path_selection_reasoning := "Failed to parse structured response"
      needs_sql_generation := false
      ready_to_execute := false
      awaiting_confirmation := true
      confirmation_type := "sql"
      iteration := s1.iteration + 1
      current_step := "sql_generated"
      messages := s1.messages ++ ["Generated SQL from fallback"] }

/-- Embedding of `sql_execution_node` (the `ExecuteSQL` tool is wired in).
`dbq` is the outcome of the underlying `database.execute_query` call; the
tool itself never raises, so the node's `except` arm is dead code.  A
result whose rendering carries an `Error:`/`error:` marker is treated as a
failure: the result is cleared and the error text recorded; success stores
the rows and clears the error. -/
def sql_execution_node (s : AgentState) (dbq : Except String (List Row)) : AgentState :=
  if s.sql_query = "" then
    { s with
      execution_error := "No SQL query to execute"
      current_step := "execution_failed" }
  else if execLooksError (executeSQLTool_run dbq) then
    { s with
      execution_result := none
      execution_error := pyStrRows (executeSQLTool_run dbq)
      ready_to_execute := false
      current_step := "execution_failed"
      messages := s.messages ++ ["SQL execution error"] }
  else
    { s with
      execution_result := some (executeSQLTool_run dbq)
      execution_error := ""
      ready_to_execute := false
      current_step := "execution_complete"
      messages := s.messages ++ ["Query executed successfully"] }

/-- Embedding of `answer_generation_node`: with a pending error and no
result, the LLM's explanation is prefixed with the error framing;
otherwise the LLM's summary is the final answer. -/
def answer_generation_node (s : AgentState) (content : String) : AgentState :=
  if s.execution_error ≠ "" ∧ resultTruthy s.execution_result = false then
    { s with
      final_answer := "I encountered an error: " ++ content
      current_step := "complete_with_error"
      messages := s.messages ++ [content] }
  else
    { s with
      final_answer := content
      current_step := "complete"
      messages := s.messages ++ [content] }

/-- Embedding of `human_interaction_node`: marks the workflow as paused. -/
def human_interaction_node (s : AgentState) : AgentState :=
  { s with
    needs_human_input := true
    current_step := "awaiting_" ++ s.confirmation_type ++ "_confirmation"
    messages := s.messages ++ ["Awaiting human confirmation"] }

-- ===========================================================================
-- Routing (conditional edges) and the workflow step relation
-- ===========================================================================

/-- The workflow graph's nodes, plus the `END` terminal (`done`). -/
inductive Node where
  | planning
  | human_interaction
  | search_columns
  | search_values
  | find_paths
  | generate_sql
  | execute_sql
  | answer
  | done
deriving DecidableEq

/-- Embedding of `should_request_confirmation` (the `en` flag is the
workflow's `enable_human_interaction`). -/
def should_request_confirmation (en : Bool) (s : AgentState) : Bool :=
  en && s.awaiting_confirmation && (s.confirmation_type = "plan")

/-- Embedding of `should_confirm_sql`.  (The source also sets
`ready_to_execute` on the state dict inside this router; router mutations
are not persisted to the graph channels, and no wired-in router reads the
flag.) -/
def should_confirm_sql (en : Bool) (s : AgentState) : Bool :=
  en && s.awaiting_confirmation && (s.confirmation_type = "sql")

/-- Embedding of `should_retry_or_finish`, the retry decision: on an error
with iterations remaining, route to human help on the last remaining
attempt (when enabled), else to column re-search for `no such column`
errors, else to regeneration; then to answer generation on a (truthy)
result or a persisting error; otherwise terminate.  (On the human-help
branch the source also sets `awaiting_confirmation`/`confirmation_type` on
the router's state dict; router mutations are not persisted to the graph
channels.) -/
def should_retry_or_finish (en : Bool) (s : AgentState) : Node :=
  if s.execution_error ≠ "" ∧ s.iteration < s.max_iterations then
    if en && (s.iteration = s.max_iterations - 1) then .human_interaction
    else if subS "no such column" (lowerS s.execution_error) then .search_columns
    else .generate_sql
  else if resultTruthy s.execution_result then .answer
  else if s.execution_error ≠ "" then .answer
  else .done

/-- One transition of the compiled graph: the current node runs (consuming
its external inputs) and the out-edge mapping of `_build_graph` picks the
next node from the updated state.  The label-to-node mapping of
`add_conditional_edges` is inlined: e.g. planning's `check_column_search`
label targets the `search_columns` node.  `P` constrains the rows coming
back from the `ExecuteSQL` tool (instantiate with `fun _ => True` for the
unconstrained workflow). -/
inductive Step (en : Bool) (P : List Row → Prop) :
    Node × AgentState → Node × AgentState → Prop
  | planning (s : AgentState) (o : String) :
      Step en P (.planning, s)
        ((if should_request_confirmation en (planning_node s o) then
            Node.human_interaction else Node.search_columns),
          planning_node s o)
  | human_interaction (s : AgentState) :
      Step en P (.human_interaction, s)
        ((if (human_interaction_node s).needs_column_search then
            Node.search_columns else Node.search_values),
          human_interaction_node s)
  | search_columns (s : AgentState) (o : ColOracle) :
      Step en P (.search_columns, s)
        ((if (column_search_node s o).needs_value_search then
            Node.search_values else Node.find_paths),
          column_search_node s o)
  | search_values (s : AgentState) (o : ValOracle) :
      Step en P (.search_values, s)
        ((if (value_search_node s o).needs_path_finding then
            Node.find_paths else Node.generate_sql),
          value_search_node s o)
  | find_paths (s : AgentState) (o : PathOracle) :
      Step en P (.find_paths, s) (.generate_sql, path_finding_node s o)
  | generate_sql (s : AgentState) (o : GenOracle) :
      Step en P (.generate_sql, s)
        ((if should_confirm_sql en (sql_generation_node s o) then
            Node.human_interaction else Node.execute_sql),
          sql_generation_node s o)
  | execute_sql (s : AgentState) (dbq : Except String (List Row))
      (hp : P (executeSQLTool_run dbq)) :
      Step en P (.execute_sql, s)
        (should_retry_or_finish en (sql_execution_node s dbq),
          sql_execution_node s dbq)
  | answer (s : AgentState) (o : String) :
      Step en P (.answer, s) (.done, answer_generation_node s o)

/-- Reflexive-transitive closure of `Step` from a start configuration. -/
inductive Reachable (en : Bool) (P : List Row → Prop) (c₀ : Node × AgentState) :
    Node × AgentState → Prop
  | refl : Reachable en P c₀ c₀
  | tail {c c' : Node × AgentState} :
      Reachable en P c₀ c → Step en P c c' → Reachable en P c₀ c'

/-- The nodes that can occur strictly before a SQL-generation pass of the
current retry cycle (entry point and retrieval chain). -/
def preGen : Node → Bool
  | .planning | .human_interaction | .search_columns
  | .search_values | .find_paths | .generate_sql => true
  | _ => false


-- ===========================================================================
-- Invariant definitions
-- ===========================================================================

/-- Iteration-bound invariant: the counter never exceeds the cap, and is
strictly below it on every node that can still lead into a generation
pass. -/
def IterInv (c : Node × AgentState) : Prop :=
  c.2.iteration ≤ c.2.max_iterations ∧
  (preGen c.1 = true → c.2.iteration < c.2.max_iterations)

/-- Mutual-exclusion invariant for the execution outcome fields. -/
def MutInv (c : Node × AgentState) : Prop :=
  (c.2.execution_result = none ∨ c.2.execution_error = "") ∧
  (c.1 ≠ Node.answer → c.1 ≠ Node.done → c.2.execution_result = none)

/-- Executor constraint of Scenario D: every `ExecuteSQL` result is
error-marked. -/
def FailP : List Row → Prop := fun r => execLooksError r = true

/-- Invariant of a run whose executions all fail: no result is ever stored,
the answer node is entered only with a pending error after the budget is
exhausted, and the terminal state carries the error-framed answer. -/
def Inv6 (c : Node × AgentState) : Prop :=
  c.2.execution_result = none ∧
  (c.1 = Node.answer → c.2.execution_error ≠ "" ∧
    c.2.iteration = c.2.max_iterations) ∧
  (c.1 = Node.done →
    startsS "I encountered an error: " c.2.final_answer = true ∧
    c.2.final_answer ≠ "" ∧ c.2.iteration = c.2.max_iterations)


-- ===========================================================================
-- Concrete instances used as witnesses and counterexamples
-- ===========================================================================

/-- A one-node graph with a well-formed but absent second identifier. -/
def g2w : Graph := ⟨["a.x", "b.y"], []⟩

/-- A two-table schema with one foreign key. -/
def g3tables : List TableInfo :=
  [⟨"Player", ["id", "team_id"]⟩, ⟨"Team", ["id", "name"]⟩]

/-- The foreign key `Player.team_id -> Team.id`. -/
def g3fks : List FKInfo := [⟨"Player", "team_id", "Team", "id"⟩]

/-- The schema graph of the two-table schema. -/
def g3w : Graph := build_schema_graph g3tables g3fks

/-- A one-table database with three player names. -/
def c4db : SVDatabase :=
  ⟨[⟨"Player", [⟨"name", "TEXT", ["Alice", "Bob", "Albert"]⟩]⟩]⟩

/-- A post-execution state carrying a `no such column` error with attempts
left. -/
def c5s : AgentState :=
  { initialState "q" "sch" 3 with
      execution_error := "Error: no such column: teamname", iteration := 1 }

/-- A generation oracle whose completion is fenced SQL and whose parse
pipeline fails. -/
def c7o : GenOracle := ⟨"```sql SELECT 1 ```", fun _ => none, []⟩

/-- A retry-entry state for the column-search node (non-empty error). -/
def c9sErr : AgentState :=
  { initialState "q" "sch" 3 with
      execution_error := "boom", needs_value_search := true,
      needs_path_finding := true }

/-- A first-pass state for the column-search node (no error). -/
def c9sOk : AgentState :=
  { initialState "q" "sch" 3 with
      needs_value_search := true, needs_path_finding := true }

/-- Column-search results with three entries (no fallback triggered). -/
def c1oCol : ColOracle :=
  ⟨[⟨"T", "a", "TEXT", "st"⟩, ⟨"T", "b", "TEXT", "st"⟩, ⟨"T", "c", "TEXT", "st"⟩],
    [], fun _ _ => ""⟩

/-- A generation oracle with an unparseable plain-SQL completion. -/
def c1oGen : GenOracle := ⟨"SELECT 1", fun _ => none, []⟩

/-- Trace A (counterexample): a run started with `max_iterations = 0`. -/
def c1s0 : AgentState := initialState "q" "sch" 0

/-- Trace A after planning. -/
def c1s1 : AgentState := planning_node c1s0 ""

/-- Trace A after column search. -/
def c1s2 : AgentState := column_search_node c1s1 c1oCol

/-- Trace A after (skipped) path finding. -/
def c1s3 : AgentState := path_finding_node c1s2 ⟨[], []⟩

/-- Trace A after the first generation: iteration 1 > 0. -/
def c1s4 : AgentState := sql_generation_node c1s3 c1oGen

/-- Trace B (counterexample): human interaction enabled, cap 1. -/
def c1b0 : AgentState := initialState "q" "sch" 1

/-- Trace B after planning (routes to plan confirmation). -/
def c1b1 : AgentState := planning_node c1b0 ""

/-- Trace B after the plan confirmation checkpoint. -/
def c1b2 : AgentState := human_interaction_node c1b1

/-- Trace B after the (skipped) value search. -/
def c1b3 : AgentState := value_search_node c1b2 ⟨"NONE", []⟩

/-- Trace B after the first generation (routes to SQL confirmation). -/
def c1b4 : AgentState := sql_generation_node c1b3 c1oGen

/-- Trace B after the SQL confirmation checkpoint. -/
def c1b5 : AgentState := human_interaction_node c1b4

/-- Trace B after the second (skipped) value search. -/
def c1b6 : AgentState := value_search_node c1b5 ⟨"NONE", []⟩

/-- Trace B after the second generation: iteration 2 > 1. -/
def c1b7 : AgentState := sql_generation_node c1b6 c1oGen

/-- Scenario D trace: a run with cap 3. -/
def d0 : AgentState := initialState "q" "sch" 3

/-- Scenario D after planning. -/
def d1 : AgentState := planning_node d0 ""

/-- Scenario D after column search. -/
def d2 : AgentState := column_search_node d1 c1oCol

/-- Scenario D after (skipped) path finding. -/
def d3 : AgentState := path_finding_node d2 ⟨[], []⟩

/-- Scenario D after generation 1. -/
def d4 : AgentState := sql_generation_node d3 c1oGen

/-- The failing database outcome of every Scenario D execution. -/
def dq : Except String (List Row) := .error "boom"

/-- Scenario D after execution 1 (failed). -/
def d5 : AgentState := sql_execution_node d4 dq

/-- Scenario D after generation 2. -/
def d6 : AgentState := sql_generation_node d5 c1oGen

/-- Scenario D after execution 2 (failed). -/
def d7 : AgentState := sql_execution_node d6 dq

/-- Scenario D after generation 3. -/
def d8 : AgentState := sql_generation_node d7 c1oGen

/-- Scenario D after execution 3 (failed; budget exhausted). -/
def d9 : AgentState := sql_execution_node d8 dq

/-- Scenario D terminal state after answer generation. -/
def d10 : AgentState := answer_generation_node d9 "could not run the query"

-- ===========================================================================
-- String lemmas
-- ===========================================================================

theorem containsSub_map (f : Char → Char) (pat l : List Char)
    (h : containsSub pat l = true) : containsSub (pat.map f) (l.map f) = true := by
  induction l with
  | nil =>
    simp only [containsSub, List.isEmpty_iff] at h
    simp [containsSub, h]
  | cons c rest ih =>
    simp only [containsSub, Bool.or_eq_true] at h
    rcases h with h | h
    · have hpre : (pat.map f) <+: ((c :: rest).map f) :=
        List.IsPrefix.map f (List.isPrefixOf_iff_prefix.mp h)
      simp only [List.map_cons] at hpre
      simp only [List.map_cons, containsSub, Bool.or_eq_true]
      exact Or.inl (List.isPrefixOf_iff_prefix.mpr hpre)
    · simp only [List.map_cons, containsSub, Bool.or_eq_true]
      exact Or.inr (ih h)

theorem containsSub_ne_nil {pat l : List Char} (hp : pat ≠ [])
    (h : containsSub pat l = true) : l ≠ [] := by
  intro he
  subst he
  simp only [containsSub, List.isEmpty_iff] at h
  exact hp h

theorem string_data_mk (l : List Char) : (String.mk l).data = l := rfl

theorem string_ne_empty_of_data {s : String} (h : s.data ≠ []) : s ≠ "" := by
  intro he
  subst he
  exact h rfl

theorem subS_lower {p s : String} (hfix : lowerS p = p) (h : subS p s = true) :
    subS p (lowerS s) = true := by
  have hd : p.data.map Char.toLower = p.data := congrArg String.data hfix
  have := containsSub_map Char.toLower p.data s.data h
  rw [hd] at this
  exact this

theorem string_eq_empty_of_data {s : String} (h : s.data = []) : s = "" := by
  cases s with
  | mk d => exact congrArg String.mk h

theorem subS_ne_empty {p s : String} (hp : p ≠ "") (h : subS p s = true) : s ≠ "" :=
  string_ne_empty_of_data
    (containsSub_ne_nil (fun he => hp (string_eq_empty_of_data he)) h)

theorem startsS_append (p t : String) : startsS p (p ++ t) = true := by
  unfold startsS
  refine List.isPrefixOf_iff_prefix.mpr ?_
  show p.data <+: (p ++ t).data
  have : (p ++ t).data = p.data ++ t.data := rfl
  rw [this]
  exact List.prefix_append _ _

theorem append_ne_empty_left {p t : String} (hp : p ≠ "") : p ++ t ≠ "" := by
  refine string_ne_empty_of_data ?_
  have : (p ++ t).data = p.data ++ t.data := rfl
  rw [this]
  intro h
  rcases List.append_eq_nil.mp h with ⟨h1, _⟩
  exact hp (string_eq_empty_of_data h1)

-- ===========================================================================
-- BFS layer lemmas
-- ===========================================================================

theorem mem_expand {G : Graph} {s : List String} {v : String} :
    v ∈ expand G s ↔
      v ∈ s ∨ (v ∈ G.nodes ∧ v ∉ s ∧ ∃ u ∈ s, G.adjB u v = true) := by
  simp [expand, List.mem_filter, List.any_eq_true]

theorem subset_expand (G : Graph) (s : List String) : s ⊆ expand G s :=
  fun _ hv => List.mem_append.mpr (Or.inl hv)

theorem expand_mono {G : Graph} {s t : List String} (hsub : s ⊆ t) :
    expand G s ⊆ expand G t := by
  intro v hv
  rcases mem_expand.mp hv with h | ⟨hn, _, u, hu, hadj⟩
  · exact subset_expand _ _ (hsub h)
  · by_cases hvt : v ∈ t
    · exact subset_expand _ _ hvt
    · exact mem_expand.mpr (Or.inr ⟨hn, hvt, u, hsub hu, hadj⟩)

theorem ball_sub_succ (G : Graph) (a : String) (n : Nat) :
    ball G a n ⊆ ball G a (n + 1) :=
  subset_expand G (ball G a n)

theorem ball_mono {G : Graph} {a : String} {m n : Nat} (h : m ≤ n) :
    ball G a m ⊆ ball G a n := by
  induction n, h using Nat.le_induction with
  | base => exact fun v hv => hv
  | succ n _ ih => exact fun v hv => ball_sub_succ G a n (ih hv)

theorem ball_subset_nodes (G : Graph) (a : String) (n : Nat) :
    ball G a n ⊆ a :: G.nodes := by
  induction n with
  | zero => intro v hv; simp only [ball, List.mem_singleton] at hv; simp [hv]
  | succ n ih =>
    intro v hv
    rcases mem_expand.mp hv with h | ⟨hn, _, _⟩
    · exact ih h
    · exact List.mem_cons_of_mem _ hn

theorem ball_nodup {G : Graph} (hG : G.nodes.Nodup) (a : String) (n : Nat) :
    (ball G a n).Nodup := by
  induction n with
  | zero => simp [ball]
  | succ n ih =>
    refine List.Nodup.append ih (hG.filter _) ?_
    rw [List.disjoint_left]
    intro x hx hxf
    have := (List.mem_filter.mp hxf).2
    simp only [Bool.and_eq_true, Bool.not_eq_true'] at this
    have hnc : x ∉ ball G a n := by
      intro hmem
      have : (ball G a n).contains x = true := by simpa using hmem
      rw [this] at *
      simp_all
    exact hnc hx

theorem ball_stable_step {G : Graph} {a : String} {n : Nat}
    (h : ball G a (n + 1) = ball G a n) (m : Nat) :
    ball G a (n + m) = ball G a n := by
  induction m with
  | zero => rfl
  | succ m ih =>
    have : ball G a (n + (m + 1)) = expand G (ball G a (n + m)) := rfl
    rw [this, ih]
    exact h

theorem ball_len_lt {G : Graph} {a : String} {n : Nat}
    (h : ball G a (n + 1) ≠ ball G a n) :
    (ball G a n).length < (ball G a (n + 1)).length := by
  have hdef : ball G a (n + 1) =
      ball G a n ++ G.nodes.filter
        (fun v => !(ball G a n).contains v &&
          (ball G a n).any (fun u => G.adjB u v)) := rfl
  rcases hfil : G.nodes.filter
      (fun v => !(ball G a n).contains v &&
        (ball G a n).any (fun u => G.adjB u v)) with _ | ⟨x, t⟩
  · exact absurd (by rw [hdef, hfil, List.append_nil]) h
  · rw [hdef, hfil]
    simp [List.length_append]

theorem exists_stable {G : Graph} (hG : G.nodes.Nodup) (a : String) :
    ∃ n, n ≤ G.nodes.length ∧ ball G a (n + 1) = ball G a n := by
  by_contra hc
  push_neg at hc
  have grow : ∀ n, n ≤ G.nodes.length + 1 → n + 1 ≤ (ball G a n).length := by
    intro n
    induction n with
    | zero => intro _; simp [ball]
    | succ n ih =>
      intro hn
      have h1 : n + 1 ≤ (ball G a n).length := ih (by omega)
      have h2 : (ball G a n).length < (ball G a (n + 1)).length :=
        ball_len_lt (hc n (by omega))
      omega
  have hlen : (ball G a (G.nodes.length + 1)).length ≤ G.nodes.length + 1 := by
    have hsp := List.subperm_of_subset (ball_nodup hG a (G.nodes.length + 1))
      (ball_subset_nodes G a (G.nodes.length + 1))
    simpa using hsp.length_le
  have := grow (G.nodes.length + 1) le_rfl
  omega

theorem ball_reach_bounded {G : Graph} (hG : G.nodes.Nodup) {a b : String} {k : Nat}
    (h : b ∈ ball G a k) : ∃ n, n ≤ G.nodes.length ∧ b ∈ ball G a n := by
  obtain ⟨n₀, hn₀, hstable⟩ := exists_stable hG a
  by_cases hk : k ≤ n₀
  · exact ⟨k, by omega, h⟩
  · refine ⟨n₀, hn₀, ?_⟩
    have : ball G a (n₀ + (k - n₀)) = ball G a n₀ := ball_stable_step hstable _
    rw [show n₀ + (k - n₀) = k by omega] at this
    rw [this] at h
    exact h

-- ===========================================================================
-- Walks, path reconstruction, and the shortest-path theorems
-- ===========================================================================

theorem adjB_mem_right {G : Graph} (wf : G.WF) {u v : String}
    (h : G.adjB u v = true) : v ∈ G.nodes := by
  unfold Graph.adjB at h
  simp only [List.any_eq_true, Bool.or_eq_true, decide_eq_true_eq] at h
  obtain ⟨e, he, hcase⟩ := h
  rcases hcase with ⟨_, h2⟩ | ⟨h1, _⟩
  · exact h2 ▸ (wf.1 e he).2
  · exact h1 ▸ (wf.1 e he).1

theorem ball_start_shift {G : Graph} (wf : G.WF) {a u : String}
    (h : G.adjB a u = true) : ∀ n, ball G u n ⊆ ball G a (n + 1) := by
  intro n
  induction n with
  | zero =>
    intro v hv
    simp only [ball, List.mem_singleton] at hv
    subst hv
    by_cases hva : v = a
    · subst hva
      exact ball_sub_succ G v 0 (by simp [ball])
    · refine mem_expand.mpr (Or.inr ⟨adjB_mem_right wf h, ?_, a, ?_, h⟩)
      · simp only [ball, List.mem_singleton]
        exact hva
      · simp [ball]
  | succ n ih =>
    show expand G (ball G u n) ⊆ expand G (ball G a (n + 1))
    exact expand_mono ih

theorem walkF_mem_ball {G : Graph} (wf : G.WF) {a b : String} {n : Nat}
    (w : WalkF G a b n) : b ∈ ball G a n := by
  induction w with
  | nil a => simp [ball]
  | cons hadj _ ih => exact ball_start_shift wf hadj _ ih

theorem chainAdjB_concat {G : Graph} {p : List String} {u b : String}
    (hc : chainAdjB G p = true) (hl : p.getLast? = some u)
    (hadj : G.adjB u b = true) : chainAdjB G (p ++ [b]) = true := by
  induction p with
  | nil => simp at hl
  | cons x rest ih =>
    cases rest with
    | nil =>
      simp only [List.getLast?_singleton, Option.some.injEq] at hl
      subst hl
      simp [chainAdjB, hadj]
    | cons y rest' =>
      simp only [chainAdjB, Bool.and_eq_true] at hc
      have hl' : (y :: rest').getLast? = some u := by
        rw [List.getLast?_cons_cons] at hl
        exact hl
      have hrec := ih hc.2 hl'
      simp only [List.cons_append, chainAdjB, Bool.and_eq_true]
      refine ⟨hc.1, ?_⟩
      simpa using hrec

theorem pathTo_succ (G : Graph) (a : String) (n : Nat) (b : String) :
    pathTo G a (n + 1) b =
      if (ball G a n).contains b then pathTo G a n b
      else
        match (ball G a n).find? (fun u => G.adjB u b) with
        | some u => pathTo G a n u ++ [b]
        | none => [] := rfl

theorem pathTo_spec (G : Graph) (a : String) :
    ∀ n b, b ∈ ball G a n →
      (pathTo G a n b).head? = some a ∧ (pathTo G a n b).getLast? = some b ∧
      chainAdjB G (pathTo G a n b) = true ∧ (pathTo G a n b).length ≤ n + 1 := by
  intro n
  induction n with
  | zero =>
    intro b hb
    simp only [ball, List.mem_singleton] at hb
    subst hb
    simp [pathTo, chainAdjB]
  | succ n ih =>
    intro b hb
    by_cases hmem : b ∈ ball G a n
    · have hcb : (ball G a n).contains b = true := by simpa using hmem
      obtain ⟨h1, h2, h3, h4⟩ := ih b hmem
      have hpeq : pathTo G a (n + 1) b = pathTo G a n b := by
        rw [pathTo_succ]
        simp only [hcb]
        simp
      rw [hpeq]
      exact ⟨h1, h2, h3, by omega⟩
    · rcases mem_expand.mp hb with h | ⟨_, _, u, hu, hadj⟩
      · exact absurd h hmem
      · have hcb : (ball G a n).contains b = false := by
          cases hx : (ball G a n).contains b with
          | false => rfl
          | true => exact absurd (by simpa using hx) hmem
        obtain ⟨u', hf⟩ : ∃ u', (ball G a n).find? (fun u => G.adjB u b) = some u' := by
          cases hf : (ball G a n).find? (fun u => G.adjB u b) with
          | some u' => exact ⟨u', rfl⟩
          | none =>
            exact absurd hadj (by simpa using List.find?_eq_none.mp hf u hu)
        have hpu' : G.adjB u' b = true := by simpa using List.find?_some hf
        have hmu' : u' ∈ ball G a n := List.mem_of_find?_eq_some hf
        obtain ⟨h1, h2, h3, h4⟩ := ih u' hmu'
        have hpeq : pathTo G a (n + 1) b = pathTo G a n u' ++ [b] := by
          rw [pathTo_succ]
          simp only [hcb, hf]
          simp
        rw [hpeq]
        refine ⟨?_, List.getLast?_concat _, chainAdjB_concat h3 h2 hpu', ?_⟩
        · rw [List.head?_append, h1]
          rfl
        · simp only [List.length_append, List.length_singleton]
          omega

theorem firstHit_some_spec (G : Graph) (a b : String) :
    ∀ fuel start m, firstHit G a b fuel start = some m →
      start ≤ m ∧ b ∈ ball G a m ∧ ∀ k, start ≤ k → k < m → b ∉ ball G a k := by
  intro fuel
  induction fuel with
  | zero => intro start m h; simp [firstHit] at h
  | succ fuel ih =>
    intro start m h
    unfold firstHit at h
    by_cases hc : (ball G a start).contains b
    · rw [if_pos hc] at h
      obtain rfl : start = m := by simpa using h
      refine ⟨le_rfl, by simpa using hc, ?_⟩
      intro k h1 h2
      omega
    · rw [if_neg hc] at h
      obtain ⟨h1, h2, h3⟩ := ih (start + 1) m h
      refine ⟨by omega, h2, ?_⟩
      intro k hk1 hk2
      rcases Nat.eq_or_lt_of_le hk1 with rfl | hlt
      · simpa using hc
      · exact h3 k (by omega) hk2

theorem firstHit_none_spec (G : Graph) (a b : String) :
    ∀ fuel start, firstHit G a b fuel start = none →
      ∀ k, start ≤ k → k < start + fuel → b ∉ ball G a k := by
  intro fuel
  induction fuel with
  | zero => intro start _ k h1 h2; omega
  | succ fuel ih =>
    intro start h k hk1 hk2
    unfold firstHit at h
    by_cases hc : (ball G a start).contains b
    · rw [if_pos hc] at h
      cases h
    · rw [if_neg hc] at h
      rcases Nat.eq_or_lt_of_le hk1 with rfl | hlt
      · simpa using hc
      · exact ih (start + 1) h k (by omega) (by omega)

theorem pathList_walkF {G : Graph} {b : String} :
    ∀ (p : List String) (a : String), IsPathList G p a b →
      WalkF G a b (p.length - 1) := by
  intro p
  induction p with
  | nil =>
    intro a h
    obtain ⟨h1, _, _⟩ := h
    simp at h1
  | cons x rest ih =>
    intro a h
    obtain ⟨h1, h2, h3⟩ := h
    simp only [List.head?_cons, Option.some.injEq] at h1
    cases rest with
    | nil =>
      simp only [List.getLast?_singleton, Option.some.injEq] at h2
      rw [h1] at h2
      rw [← h2]
      simpa using (WalkF.nil a : WalkF G a a 0)
    | cons y rest' =>
      simp only [chainAdjB, Bool.and_eq_true] at h3
      have hy : IsPathList G (y :: rest') y b := by
        refine ⟨rfl, ?_, h3.2⟩
        rw [List.getLast?_cons_cons] at h2
        exact h2
      have hw := ih y hy
      have hx : WalkF G x b ((y :: rest').length - 1 + 1) := WalkF.cons h3.1 hw
      rw [h1] at hx
      simpa using hx

theorem connected_firstHit {G : Graph} (hG : G.nodes.Nodup) (wf : G.WF)
    {a b : String} (hcon : Connected G a b) :
    ∃ m, firstHit G a b (G.nodes.length + 1) 0 = some m := by
  obtain ⟨p, hp⟩ := hcon
  have hw := pathList_walkF p a hp
  have hball := walkF_mem_ball wf hw
  obtain ⟨n, hn, hbn⟩ := ball_reach_bounded hG hball
  cases hf : firstHit G a b (G.nodes.length + 1) 0 with
  | some m => exact ⟨m, rfl⟩
  | none =>
    exact absurd hbn (firstHit_none_spec G a b _ 0 hf n (by omega) (by omega))

theorem fsp_connected {G : Graph} (wf : G.WF) {a b : String}
    (ha : a ∈ G.nodes) (hb : b ∈ G.nodes) (hcon : Connected G a b) :
    ∃ p, find_shortest_path G a b = .ok p ∧ IsPathList G p a b ∧
      ∀ q, IsPathList G q a b → p.length ≤ q.length := by
  obtain ⟨m, hm⟩ := connected_firstHit wf.2 wf hcon
  obtain ⟨_, hbm, hmin⟩ := firstHit_some_spec G a b _ 0 m hm
  obtain ⟨h1, h2, h3, h4⟩ := pathTo_spec G a m b hbm
  refine ⟨pathTo G a m b, ?_, ⟨h1, h2, h3⟩, ?_⟩
  · unfold find_shortest_path
    have hca : G.nodes.contains a = true := by simpa using ha
    have hcb : G.nodes.contains b = true := by simpa using hb
    rw [hca, hcb]
    simp [hm]
  · intro q hq
    have hw := pathList_walkF q a hq
    have hball := walkF_mem_ball wf hw
    have hqlen : 1 ≤ q.length := by
      obtain ⟨hq1, _, _⟩ := hq
      cases q with
      | nil => simp at hq1
      | cons _ _ => simp
    by_cases hcmp : q.length - 1 < m
    · exact absurd hball (hmin _ (by omega) hcmp)
    · omega

theorem fsp_disconnected {G : Graph} {a b : String}
    (ha : a ∈ G.nodes) (hb : b ∈ G.nodes) (hncon : ¬ Connected G a b) :
    find_shortest_path G a b = .ok [] := by
  cases hf : firstHit G a b (G.nodes.length + 1) 0 with
  | none =>
    unfold find_shortest_path
    have hca : G.nodes.contains a = true := by simpa using ha
    have hcb : G.nodes.contains b = true := by simpa using hb
    rw [hca, hcb]
    simp [hf]
  | some m =>
    exfalso
    obtain ⟨_, hbm, _⟩ := firstHit_some_spec G a b _ 0 m hf
    obtain ⟨h1, h2, h3, _⟩ := pathTo_spec G a m b hbm
    exact hncon ⟨pathTo G a m b, h1, h2, h3⟩

theorem fsp_absent {G : Graph} {a b : String}
    (h : a ∉ G.nodes ∨ b ∉ G.nodes) :
    find_shortest_path G a b = .error .nodeNotFound := by
  unfold find_shortest_path
  have : (G.nodes.contains a && G.nodes.contains b) = false := by
    rcases h with h | h <;> simp [h]
  rw [this]
  rfl

theorem not_connected_of_no_edges {G : Graph} (he : G.edges = [])
    {a b : String} (hab : a ≠ b) : ¬ Connected G a b := by
  rintro ⟨p, h1, h2, h3⟩
  cases p with
  | nil => simp at h1
  | cons x rest =>
    cases rest with
    | nil =>
      simp only [List.head?_cons, Option.some.injEq] at h1
      simp only [List.getLast?_singleton, Option.some.injEq] at h2
      exact hab (h1 ▸ h2 ▸ rfl)
    | cons y rest' =>
      simp only [chainAdjB, Bool.and_eq_true] at h3
      have := h3.1
      unfold Graph.adjB at this
      rw [he] at this
      simp at this

-- ===========================================================================
-- Value search lemmas
-- ===========================================================================

theorem svColCandidates_sub {tb : SVTable} {query cn : String} {c : Candidate}
    (hc : c ∈ svColCandidates tb query cn) :
    subS (lowerS query) (lowerS c.contents) = true := by
  unfold svColCandidates at hc
  rcases hfind : tb.columns.find? (fun ci => ci.name = cn) with _ | ci
  · rw [hfind] at hc
    simp at hc
  · rw [hfind] at hc
    dsimp only at hc
    by_cases hty : isTextType ci.type
    · rw [if_pos hty] at hc
      simp only [List.mem_filterMap] at hc
      obtain ⟨v, _, heq⟩ := hc
      by_cases hsub : subS (lowerS query) (lowerS v) = true
      · rw [if_pos hsub] at heq
        cases heq
        exact hsub
      · rw [if_neg hsub] at heq
        cases heq
    · rw [if_neg hty] at hc
      simp at hc

theorem svCandidates_sub {db : SVDatabase} {query : String}
    {table? column? : Option String} {c : Candidate}
    (hc : c ∈ svCandidates db query table? column?) :
    subS (lowerS query) (lowerS c.contents) = true := by
  unfold svCandidates at hc
  simp only [List.mem_flatMap] at hc
  obtain ⟨tb, _, _, _, hmem⟩ := hc
  exact svColCandidates_sub hmem

theorem scored_mem {db : SVDatabase} {query : String}
    {table? column? : Option String} {scores : Nat → ℚ} {x : ScoredCandidate}
    (hx : x ∈ search_values_scored db query table? column? scores) :
    ∃ c ∈ svCandidates db query table? column?, x.contents = c.contents := by
  unfold search_values_scored at hx
  rw [List.mem_mergeSort] at hx
  simp only [List.mem_map] at hx
  obtain ⟨⟨i, c⟩, hmem, heq⟩ := hx
  obtain ⟨hlt, hc⟩ := List.mem_enum hmem
  refine ⟨c, ?_, by rw [← heq]⟩
  rw [hc]
  exact List.getElem_mem hlt

theorem scored_sorted (db : SVDatabase) (query : String)
    (table? column? : Option String) (scores : Nat → ℚ) :
    (search_values_scored db query table? column? scores).Pairwise
      (fun x y => y.score ≤ x.score) := by
  unfold search_values_scored
  have hs := @List.sorted_mergeSort ScoredCandidate
    (fun x y : ScoredCandidate => decide (y.score ≤ x.score))
    (fun a b c hab hbc => by
      simp only [decide_eq_true_eq] at *
      exact le_trans hbc hab)
    (fun a b => by
      simp only [Bool.or_eq_true, decide_eq_true_eq]
      exact le_total b.score a.score)
    ((svCandidates db query table? column?).enum.map
      (fun p => ⟨p.2.contents, p.2.table, p.2.column, scores p.1⟩))
  exact hs.imp (by intro a b h; simpa using h)

theorem search_values_take_eq (db : SVDatabase) (query : String)
    (table? column? : Option String) (limit : Nat) (scores : Nat → ℚ) :
    search_values db query table? column? limit scores =
      ((search_values_scored db query table? column? scores).take limit).map
        (fun c => ⟨c.contents, c.table, c.column⟩) := by
  unfold search_values
  by_cases h : (svCandidates db query table? column?).isEmpty
  · rw [if_pos h]
    have he : svCandidates db query table? column? = [] := by
      simpa [List.isEmpty_iff] using h
    unfold search_values_scored
    rw [he]
    simp
  · rw [if_neg h]

-- ===========================================================================
-- Node effect (frame) lemmas
-- ===========================================================================

@[simp] theorem planning_node_iteration (s : AgentState) (o : String) :
    (planning_node s o).iteration = s.iteration := rfl

@[simp] theorem planning_node_max (s : AgentState) (o : String) :
    (planning_node s o).max_iterations = s.max_iterations := rfl

@[simp] theorem planning_node_queries (s : AgentState) (o : String) :
    (planning_node s o).sql_queries = s.sql_queries := rfl

@[simp] theorem planning_node_result (s : AgentState) (o : String) :
    (planning_node s o).execution_result = s.execution_result := rfl

@[simp] theorem planning_node_error (s : AgentState) (o : String) :
    (planning_node s o).execution_error = s.execution_error := rfl

@[simp] theorem human_node_iteration (s : AgentState) :
    (human_interaction_node s).iteration = s.iteration := rfl

@[simp] theorem human_node_max (s : AgentState) :
    (human_interaction_node s).max_iterations = s.max_iterations := rfl

@[simp] theorem human_node_queries (s : AgentState) :
    (human_interaction_node s).sql_queries = s.sql_queries := rfl

@[simp] theorem human_node_result (s : AgentState) :
    (human_interaction_node s).execution_result = s.execution_result := rfl

@[simp] theorem human_node_error (s : AgentState) :
    (human_interaction_node s).execution_error = s.execution_error := rfl

@[simp] theorem column_node_iteration (s : AgentState) (o : ColOracle) :
    (column_search_node s o).iteration = s.iteration := rfl

@[simp] theorem column_node_max (s : AgentState) (o : ColOracle) :
    (column_search_node s o).max_iterations = s.max_iterations := rfl

@[simp] theorem column_node_queries (s : AgentState) (o : ColOracle) :
    (column_search_node s o).sql_queries = s.sql_queries := rfl

@[simp] theorem column_node_result (s : AgentState) (o : ColOracle) :
    (column_search_node s o).execution_result = s.execution_result := rfl

@[simp] theorem column_node_error (s : AgentState) (o : ColOracle) :
    (column_search_node s o).execution_error = s.execution_error := rfl

@[simp] theorem value_node_iteration (s : AgentState) (o : ValOracle) :
    (value_search_node s o).iteration = s.iteration := by
  unfold value_search_node
  split <;> rfl

@[simp] theorem value_node_max (s : AgentState) (o : ValOracle) :
    (value_search_node s o).max_iterations = s.max_iterations := by
  unfold value_search_node
  split <;> rfl

@[simp] theorem value_node_queries (s : AgentState) (o : ValOracle) :
    (value_search_node s o).sql_queries = s.sql_queries := by
  unfold value_search_node
  split <;> rfl

@[simp] theorem value_node_result (s : AgentState) (o : ValOracle) :
    (value_search_node s o).execution_result = s.execution_result := by
  unfold value_search_node
  split <;> rfl

@[simp] theorem value_node_error (s : AgentState) (o : ValOracle) :
    (value_search_node s o).execution_error = s.execution_error := by
  unfold value_search_node
  split <;> rfl

@[simp] theorem path_node_iteration (s : AgentState) (o : PathOracle) :
    (path_finding_node s o).iteration = s.iteration := by
  unfold path_finding_node
  dsimp only
  split <;> try rfl
  split <;> try rfl
  split <;> rfl

@[simp] theorem path_node_max (s : AgentState) (o : PathOracle) :
    (path_finding_node s o).max_iterations = s.max_iterations := by
  unfold path_finding_node
  dsimp only
  split <;> try rfl
  split <;> try rfl
  split <;> rfl

@[simp] theorem path_node_queries (s : AgentState) (o : PathOracle) :
    (path_finding_node s o).sql_queries = s.sql_queries := by
  unfold path_finding_node
  dsimp only
  split <;> try rfl
  split <;> try rfl
  split <;> rfl

@[simp] theorem path_node_result (s : AgentState) (o : PathOracle) :
    (path_finding_node s o).execution_result = s.execution_result := by
  unfold path_finding_node
  dsimp only
  split <;> try rfl
  split <;> try rfl
  split <;> rfl

@[simp] theorem path_node_error (s : AgentState) (o : PathOracle) :
    (path_finding_node s o).execution_error = s.execution_error := by
  unfold path_finding_node
  dsimp only
  split <;> try rfl
  split <;> try rfl
  split <;> rfl

@[simp] theorem gen_fallback_iteration (s : AgentState) (o : GenOracle) :
    (gen_fallback_update s o).iteration = s.iteration := by
  unfold gen_fallback_update
  split
  · split <;> rfl
  · split
    · split <;> rfl
    · rfl

@[simp] theorem gen_fallback_max (s : AgentState) (o : GenOracle) :
    (gen_fallback_update s o).max_iterations = s.max_iterations := by
  unfold gen_fallback_update
  split
  · split <;> rfl
  · split
    · split <;> rfl
    · rfl

@[simp] theorem gen_fallback_queries (s : AgentState) (o : GenOracle) :
    (gen_fallback_update s o).sql_queries = s.sql_queries := by
  unfold gen_fallback_update
  split
  · split <;> rfl
  · split
    · split <;> rfl
    · rfl

@[simp] theorem gen_fallback_result (s : AgentState) (o : GenOracle) :
    (gen_fallback_update s o).execution_result = s.execution_result := by
  unfold gen_fallback_update
  split
  · split <;> rfl
  · split
    · split <;> rfl
    · rfl

@[simp] theorem gen_fallback_error (s : AgentState) (o : GenOracle) :
    (gen_fallback_update s o).execution_error = s.execution_error := by
  unfold gen_fallback_update
  split
  · split <;> rfl
  · split
    · split <;> rfl
    · rfl

@[simp] theorem gen_node_iteration (s : AgentState) (o : GenOracle) :
    (sql_generation_node s o).iteration = s.iteration + 1 := by
  unfold sql_generation_node
  dsimp only
  split <;> simp

@[simp] theorem gen_node_max (s : AgentState) (o : GenOracle) :
    (sql_generation_node s o).max_iterations = s.max_iterations := by
  unfold sql_generation_node
  dsimp only
  split <;> simp

@[simp] theorem gen_node_result (s : AgentState) (o : GenOracle) :
    (sql_generation_node s o).execution_result = s.execution_result := by
  unfold sql_generation_node
  dsimp only
  split <;> simp

@[simp] theorem gen_node_error (s : AgentState) (o : GenOracle) :
    (sql_generation_node s o).execution_error = s.execution_error := by
  unfold sql_generation_node
  dsimp only
  split <;> simp

theorem gen_node_queries (s : AgentState) (o : GenOracle) :
    (sql_generation_node s o).sql_queries =
      s.sql_queries ++ [(sql_generation_node s o).sql_query] := by
  unfold sql_generation_node
  dsimp only
  split <;> simp

@[simp] theorem exec_node_iteration (s : AgentState) (dbq : Except String (List Row)) :
    (sql_execution_node s dbq).iteration = s.iteration := by
  unfold sql_execution_node
  split <;> try rfl
  split <;> rfl

@[simp] theorem exec_node_max (s : AgentState) (dbq : Except String (List Row)) :
    (sql_execution_node s dbq).max_iterations = s.max_iterations := by
  unfold sql_execution_node
  split <;> try rfl
  split <;> rfl

@[simp] theorem exec_node_queries (s : AgentState) (dbq : Except String (List Row)) :
    (sql_execution_node s dbq).sql_queries = s.sql_queries := by
  unfold sql_execution_node
  split <;> try rfl
  split <;> rfl

@[simp] theorem answer_node_iteration (s : AgentState) (o : String) :
    (answer_generation_node s o).iteration = s.iteration := by
  unfold answer_generation_node
  split <;> rfl

@[simp] theorem answer_node_max (s : AgentState) (o : String) :
    (answer_generation_node s o).max_iterations = s.max_iterations := by
  unfold answer_generation_node
  split <;> rfl

@[simp] theorem answer_node_queries (s : AgentState) (o : String) :
    (answer_generation_node s o).sql_queries = s.sql_queries := by
  unfold answer_generation_node
  split <;> rfl

@[simp] theorem answer_node_result (s : AgentState) (o : String) :
    (answer_generation_node s o).execution_result = s.execution_result := by
  unfold answer_generation_node
  split <;> rfl

@[simp] theorem answer_node_error (s : AgentState) (o : String) :
    (answer_generation_node s o).execution_error = s.execution_error := by
  unfold answer_generation_node
  split <;> rfl

-- ===========================================================================
-- Routing helper lemmas and execution-node case analysis
-- ===========================================================================

theorem should_request_confirmation_false (s : AgentState) :
    should_request_confirmation false s = false := by
  simp [should_request_confirmation]

theorem should_confirm_sql_false (s : AgentState) :
    should_confirm_sql false s = false := by
  simp [should_confirm_sql]

theorem retry_no_error (en : Bool) (s : AgentState) (h : s.execution_error = "") :
    should_retry_or_finish en s = .answer ∨ should_retry_or_finish en s = .done := by
  unfold should_retry_or_finish
  rw [if_neg (by simp [h])]
  by_cases h2 : resultTruthy s.execution_result = true
  · rw [if_pos h2]
    exact Or.inl rfl
  · rw [if_neg h2, if_neg (by simp [h])]
    exact Or.inr rfl

theorem exec_node_cases (s : AgentState) (dbq : Except String (List Row)) :
    (s.sql_query = "" ∧
      (sql_execution_node s dbq).execution_result = s.execution_result ∧
      (sql_execution_node s dbq).execution_error = "No SQL query to execute")
    ∨ (s.sql_query ≠ "" ∧ execLooksError (executeSQLTool_run dbq) = true ∧
      (sql_execution_node s dbq).execution_result = none ∧
      (sql_execution_node s dbq).execution_error = pyStrRows (executeSQLTool_run dbq))
    ∨ (s.sql_query ≠ "" ∧ execLooksError (executeSQLTool_run dbq) = false ∧
      (sql_execution_node s dbq).execution_result = some (executeSQLTool_run dbq) ∧
      (sql_execution_node s dbq).execution_error = "") := by
  by_cases h0 : s.sql_query = ""
  · refine Or.inl ⟨h0, ?_, ?_⟩ <;> (unfold sql_execution_node; rw [if_pos h0])
  · by_cases h1 : execLooksError (executeSQLTool_run dbq) = true
    · refine Or.inr (Or.inl ⟨h0, h1, ?_, ?_⟩) <;>
        (unfold sql_execution_node; rw [if_neg h0, if_pos h1])
    · refine Or.inr (Or.inr ⟨h0, by simpa using h1, ?_, ?_⟩) <;>
        (unfold sql_execution_node; rw [if_neg h0, if_neg h1])

theorem noSql_error_ne : ("No SQL query to execute" : String) ≠ "" := by decide

theorem pyStrRows_ne_empty (rows : List Row) : pyStrRows rows ≠ "" := by
  have h : ("[" : String) ≠ "" := by decide
  unfold pyStrRows
  exact append_ne_empty_left (append_ne_empty_left h)

theorem exec_node_error_ne {s : AgentState} {dbq : Except String (List Row)}
    (hp : execLooksError (executeSQLTool_run dbq) = true) :
    (sql_execution_node s dbq).execution_error ≠ "" := by
  rcases exec_node_cases s dbq with ⟨_, _, he⟩ | ⟨_, _, _, he⟩ | ⟨_, hm, _, _⟩
  · rw [he]
    exact noSql_error_ne
  · rw [he]
    exact pyStrRows_ne_empty _
  · rw [hp] at hm
    cases hm

theorem answer_node_error_branch (s : AgentState) (o : String)
    (he : s.execution_error ≠ "") (hrn : s.execution_result = none) :
    (answer_generation_node s o).final_answer = "I encountered an error: " ++ o := by
  unfold answer_generation_node
  rw [if_pos ⟨he, by rw [hrn]; rfl⟩]

theorem retry_routes (en : Bool) (s : AgentState) :
    should_retry_or_finish en s = .human_interaction
    ∨ (should_retry_or_finish en s = .search_columns ∧
        s.iteration < s.max_iterations)
    ∨ (should_retry_or_finish en s = .generate_sql ∧
        s.iteration < s.max_iterations)
    ∨ should_retry_or_finish en s = .answer
    ∨ should_retry_or_finish en s = .done := by
  unfold should_retry_or_finish
  by_cases hcond : s.execution_error ≠ "" ∧ s.iteration < s.max_iterations
  · rw [if_pos hcond]
    by_cases hh : (en && decide (s.iteration = s.max_iterations - 1)) = true
    · rw [if_pos hh]
      exact Or.inl rfl
    · rw [if_neg hh]
      by_cases hsub : subS "no such column" (lowerS s.execution_error) = true
      · rw [if_pos hsub]
        exact Or.inr (Or.inl ⟨rfl, hcond.2⟩)
      · rw [if_neg hsub]
        exact Or.inr (Or.inr (Or.inl ⟨rfl, hcond.2⟩))
  · rw [if_neg hcond]
    by_cases ht : resultTruthy s.execution_result = true
    · rw [if_pos ht]
      exact Or.inr (Or.inr (Or.inr (Or.inl rfl)))
    · rw [if_neg ht]
      by_cases he : s.execution_error ≠ ""
      · rw [if_pos he]
        exact Or.inr (Or.inr (Or.inr (Or.inl rfl)))
      · rw [if_neg he]
        exact Or.inr (Or.inr (Or.inr (Or.inr rfl)))

theorem retry_no_human (s : AgentState) :
    should_retry_or_finish false s ≠ .human_interaction := by
  unfold should_retry_or_finish
  by_cases hcond : s.execution_error ≠ "" ∧ s.iteration < s.max_iterations
  · rw [if_pos hcond, if_neg (by simp)]
    split <;> simp
  · rw [if_neg hcond]
    split
    · simp
    · split <;> simp

-- ===========================================================================
-- Workflow invariants
-- ===========================================================================

theorem iterInv_step {P : List Row → Prop} {c c' : Node × AgentState}
    (h : Step false P c c') (hc : IterInv c) : IterInv c' := by
  obtain ⟨h1, h2⟩ := hc
  cases h with
  | planning s o =>
    have hlt : s.iteration < s.max_iterations := h2 rfl
    exact ⟨by simp <;> omega, fun _ => by simp <;> omega⟩
  | human_interaction s =>
    have hlt : s.iteration < s.max_iterations := h2 rfl
    exact ⟨by simp <;> omega, fun _ => by simp <;> omega⟩
  | search_columns s o =>
    have hlt : s.iteration < s.max_iterations := h2 rfl
    exact ⟨by simp <;> omega, fun _ => by simp <;> omega⟩
  | search_values s o =>
    have hlt : s.iteration < s.max_iterations := h2 rfl
    exact ⟨by simp <;> omega, fun _ => by simp <;> omega⟩
  | find_paths s o =>
    have hlt : s.iteration < s.max_iterations := h2 rfl
    exact ⟨by simp <;> omega, fun _ => by simp <;> omega⟩
  | generate_sql s o =>
    have hlt : s.iteration < s.max_iterations := h2 rfl
    refine ⟨by simp <;> omega, fun hpg => ?_⟩
    simp only [should_confirm_sql_false, Bool.false_eq_true, if_false] at hpg
    simp [preGen] at hpg
  | execute_sql s dbq hp =>
    have h1' : s.iteration ≤ s.max_iterations := h1
    refine ⟨by simp <;> omega, fun hpg => ?_⟩
    rcases retry_routes false (sql_execution_node s dbq) with
      hd | ⟨hd, hlt⟩ | ⟨hd, hlt⟩ | hd | hd
    · exact absurd hd (retry_no_human _)
    · simpa using hlt
    · simpa using hlt
    · rw [hd] at hpg
      simp [preGen] at hpg
    · rw [hd] at hpg
      simp [preGen] at hpg
  | answer s o =>
    have h1' : s.iteration ≤ s.max_iterations := h1
    refine ⟨by simp <;> omega, fun hpg => ?_⟩
    simp [preGen] at hpg

theorem iterInv_reachable {P : List Row → Prop} {q sc : String} {m : Nat}
    (hm : 1 ≤ m) {c : Node × AgentState}
    (hr : Reachable false P (.planning, initialState q sc m) c) : IterInv c := by
  induction hr with
  | refl =>
    exact ⟨by simp [initialState] <;> omega, fun _ => by simp [initialState] <;> omega⟩
  | tail _ hs ih => exact iterInv_step hs ih

theorem lenEq_reachable {en : Bool} {P : List Row → Prop} {q sc : String} {m : Nat}
    {c : Node × AgentState}
    (hr : Reachable en P (.planning, initialState q sc m) c) :
    c.2.sql_queries.length = c.2.iteration ∧ c.2.max_iterations = m := by
  induction hr with
  | refl => exact ⟨rfl, rfl⟩
  | tail _ hs ih =>
    obtain ⟨ih1, ih2⟩ := ih
    cases hs with
    | planning s o => exact ⟨by simpa using ih1, by simpa using ih2⟩
    | human_interaction s => exact ⟨by simpa using ih1, by simpa using ih2⟩
    | search_columns s o => exact ⟨by simpa using ih1, by simpa using ih2⟩
    | search_values s o => exact ⟨by simpa using ih1, by simpa using ih2⟩
    | find_paths s o => exact ⟨by simpa using ih1, by simpa using ih2⟩
    | generate_sql s o =>
      refine ⟨?_, by simpa using ih2⟩
      rw [gen_node_queries]
      simp only [List.length_append, List.length_singleton, gen_node_iteration]
      simp only at ih1
      omega
    | execute_sql s dbq hp => exact ⟨by simpa using ih1, by simpa using ih2⟩
    | answer s o => exact ⟨by simpa using ih1, by simpa using ih2⟩

theorem mutInv_step {en : Bool} {P : List Row → Prop} {c c' : Node × AgentState}
    (h : Step en P c c') (hc : MutInv c) : MutInv c' := by
  obtain ⟨h1, h2⟩ := hc
  cases h with
  | planning s o =>
    have hn : s.execution_result = none := h2 (by simp) (by simp)
    exact ⟨Or.inl (by simpa using hn), fun _ _ => by simpa using hn⟩
  | human_interaction s =>
    have hn : s.execution_result = none := h2 (by simp) (by simp)
    exact ⟨Or.inl (by simpa using hn), fun _ _ => by simpa using hn⟩
  | search_columns s o =>
    have hn : s.execution_result = none := h2 (by simp) (by simp)
    exact ⟨Or.inl (by simpa using hn), fun _ _ => by simpa using hn⟩
  | search_values s o =>
    have hn : s.execution_result = none := h2 (by simp) (by simp)
    exact ⟨Or.inl (by simpa using hn), fun _ _ => by simpa using hn⟩
  | find_paths s o =>
    have hn : s.execution_result = none := h2 (by simp) (by simp)
    exact ⟨Or.inl (by simpa using hn), fun _ _ => by simpa using hn⟩
  | generate_sql s o =>
    have hn : s.execution_result = none := h2 (by simp) (by simp)
    exact ⟨Or.inl (by simpa using hn), fun _ _ => by simpa using hn⟩
  | execute_sql s dbq hp =>
    have hn : s.execution_result = none := h2 (by simp) (by simp)
    rcases exec_node_cases s dbq with ⟨_, hr, _⟩ | ⟨_, _, hr, _⟩ | ⟨_, _, hr, he⟩
    · exact ⟨Or.inl (hr.trans hn), fun _ _ => hr.trans hn⟩
    · exact ⟨Or.inl hr, fun _ _ => hr⟩
    · refine ⟨Or.inr he, fun hna hnd => ?_⟩
      rcases retry_no_error en _ he with hd | hd
      · exact absurd hd hna
      · exact absurd hd hnd
  | answer s o =>
    refine ⟨?_, fun _ hnd => absurd rfl hnd⟩
    rcases h1 with h1 | h1
    · exact Or.inl (by simpa using h1)
    · exact Or.inr (by simpa using h1)

theorem mutInv_reachable {en : Bool} {P : List Row → Prop} {q sc : String} {m : Nat}
    {c : Node × AgentState}
    (hr : Reachable en P (.planning, initialState q sc m) c) : MutInv c := by
  induction hr with
  | refl => exact ⟨Or.inl rfl, fun _ _ => rfl⟩
  | tail _ hs ih => exact mutInv_step hs ih

theorem step_iteration_effects {en : Bool} {P : List Row → Prop}
    {c c' : Node × AgentState} (h : Step en P c c') :
    (c.2.iteration ≤ c'.2.iteration ∧ ∃ t, c'.2.sql_queries = c.2.sql_queries ++ t)
    ∧ (c.1 = Node.generate_sql →
        c'.2.iteration = c.2.iteration + 1 ∧
        c'.2.sql_queries = c.2.sql_queries ++ [c'.2.sql_query])
    ∧ (c.1 ≠ Node.generate_sql →
        c'.2.iteration = c.2.iteration ∧ c'.2.sql_queries = c.2.sql_queries) := by
  cases h with
  | planning s o =>
    refine ⟨⟨by simp <;> omega, [], by simp⟩, fun hx => ?_, fun _ => ⟨by simp, by simp⟩⟩
    simp at hx
  | human_interaction s =>
    refine ⟨⟨by simp <;> omega, [], by simp⟩, fun hx => ?_, fun _ => ⟨by simp, by simp⟩⟩
    simp at hx
  | search_columns s o =>
    refine ⟨⟨by simp <;> omega, [], by simp⟩, fun hx => ?_, fun _ => ⟨by simp, by simp⟩⟩
    simp at hx
  | search_values s o =>
    refine ⟨⟨by simp <;> omega, [], by simp⟩, fun hx => ?_, fun _ => ⟨by simp, by simp⟩⟩
    simp at hx
  | find_paths s o =>
    refine ⟨⟨by simp <;> omega, [], by simp⟩, fun hx => ?_, fun _ => ⟨by simp, by simp⟩⟩
    simp at hx
  | generate_sql s o =>
    refine ⟨⟨by simp <;> omega, [(sql_generation_node s o).sql_query], ?_⟩,
      fun _ => ⟨by simp, ?_⟩, fun hx => absurd rfl hx⟩ <;>
      exact gen_node_queries s o
  | execute_sql s dbq hp =>
    refine ⟨⟨by simp <;> omega, [], by simp⟩, fun hx => ?_, fun _ => ⟨by simp, by simp⟩⟩
    simp at hx
  | answer s o =>
    refine ⟨⟨by simp <;> omega, [], by simp⟩, fun hx => ?_, fun _ => ⟨by simp, by simp⟩⟩
    simp at hx

-- ===========================================================================
-- The all-attempts-fail scenario (budget exhaustion)
-- ===========================================================================

theorem ite_node_ne (b : Bool) (n1 n2 n : Node) (h1 : n1 ≠ n) (h2 : n2 ≠ n) :
    (if b then n1 else n2) ≠ n := by
  cases b <;> simp [h1, h2]

theorem retry_fail_routes {s' : AgentState} (he : s'.execution_error ≠ "")
    (hr : resultTruthy s'.execution_result = false) :
    (s'.iteration < s'.max_iterations ∧
      (should_retry_or_finish false s' = .search_columns ∨
        should_retry_or_finish false s' = .generate_sql))
    ∨ (¬ s'.iteration < s'.max_iterations ∧
        should_retry_or_finish false s' = .answer) := by
  unfold should_retry_or_finish
  by_cases hlt : s'.iteration < s'.max_iterations
  · rw [if_pos ⟨he, hlt⟩, if_neg (by simp)]
    by_cases hsub : subS "no such column" (lowerS s'.execution_error) = true
    · rw [if_pos hsub]
      exact Or.inl ⟨hlt, Or.inl rfl⟩
    · rw [if_neg hsub]
      exact Or.inl ⟨hlt, Or.inr rfl⟩
  · rw [if_neg (fun hand => hlt hand.2), if_neg (by simp [hr]), if_pos he]
    exact Or.inr ⟨hlt, rfl⟩

theorem inv6_step {q sc : String} {m : Nat} (hm : 1 ≤ m) {c c' : Node × AgentState}
    (hr : Reachable false FailP (.planning, initialState q sc m) c)
    (h : Step false FailP c c') (hc : Inv6 c) : Inv6 c' := by
  cases h with
  | planning s o =>
    refine ⟨by simpa using hc.1, fun heq => ?_, fun heq => ?_⟩ <;>
      simp [should_request_confirmation_false] at heq
  | human_interaction s =>
    refine ⟨by simpa using hc.1, fun heq => ?_, fun heq => ?_⟩ <;>
      exact absurd heq (ite_node_ne _ _ _ _ (by decide) (by decide))
  | search_columns s o =>
    refine ⟨by simpa using hc.1, fun heq => ?_, fun heq => ?_⟩ <;>
      exact absurd heq (ite_node_ne _ _ _ _ (by decide) (by decide))
  | search_values s o =>
    refine ⟨by simpa using hc.1, fun heq => ?_, fun heq => ?_⟩ <;>
      exact absurd heq (ite_node_ne _ _ _ _ (by decide) (by decide))
  | find_paths s o =>
    refine ⟨by simpa using hc.1, fun heq => ?_, fun heq => ?_⟩ <;> simp at heq
  | generate_sql s o =>
    refine ⟨by simpa using hc.1, fun heq => ?_, fun heq => ?_⟩ <;>
      simp [should_confirm_sql_false] at heq
  | execute_sql s dbq hp =>
    have hIter : s.iteration ≤ s.max_iterations := (iterInv_reachable hm hr).1
    have hn : s.execution_result = none := hc.1
    have he' : (sql_execution_node s dbq).execution_error ≠ "" := exec_node_error_ne hp
    have hrn : (sql_execution_node s dbq).execution_result = none := by
      rcases exec_node_cases s dbq with ⟨_, hr0, _⟩ | ⟨_, _, hr0, _⟩ | ⟨_, hm0, _, _⟩
      · exact hr0.trans hn
      · exact hr0
      · rw [hp] at hm0
        cases hm0
    have htr : resultTruthy (sql_execution_node s dbq).execution_result = false := by
      rw [hrn]
      rfl
    refine ⟨hrn, fun heq => ?_, fun heq => ?_⟩
    · have heq' : should_retry_or_finish false (sql_execution_node s dbq) = .answer := heq
      refine ⟨he', ?_⟩
      rcases retry_fail_routes he' htr with ⟨_, hroute⟩ | ⟨hnlt, _⟩
      · rcases hroute with h0 | h0 <;>
          exact absurd (h0.symm.trans heq') (by decide)
      · have hit : (sql_execution_node s dbq).iteration = s.iteration := by simp
        have hmax : (sql_execution_node s dbq).max_iterations = s.max_iterations := by
          simp
        show (sql_execution_node s dbq).iteration =
          (sql_execution_node s dbq).max_iterations
        omega
    · have heq' : should_retry_or_finish false (sql_execution_node s dbq) = .done := heq
      rcases retry_fail_routes he' htr with ⟨_, hroute⟩ | ⟨_, h0⟩
      · rcases hroute with h0 | h0 <;>
          exact absurd (h0.symm.trans heq') (by decide)
      · exact absurd (h0.symm.trans heq') (by decide)
  | answer s o =>
    obtain ⟨hn, ha, _⟩ := hc
    obtain ⟨he, hit0⟩ := ha rfl
    have hit : s.iteration = s.max_iterations := hit0
    refine ⟨by simpa using hn, fun heq => by simp at heq, fun _ => ?_⟩
    have hfa : (answer_generation_node s o).final_answer =
        "I encountered an error: " ++ o := answer_node_error_branch s o he hn
    refine ⟨?_, ?_, ?_⟩
    · rw [hfa]
      exact startsS_append _ _
    · rw [hfa]
      exact append_ne_empty_left (by decide)
    · have e1 : (answer_generation_node s o).iteration = s.iteration := by simp
      have e2 : (answer_generation_node s o).max_iterations = s.max_iterations := by simp
      show (answer_generation_node s o).iteration =
        (answer_generation_node s o).max_iterations
      omega

theorem inv6_reachable {q sc : String} {m : Nat} (hm : 1 ≤ m) {c : Node × AgentState}
    (hr : Reachable false FailP (.planning, initialState q sc m) c) : Inv6 c := by
  induction hr with
  | refl => exact ⟨rfl, fun heq => by simp at heq, fun heq => by simp at heq⟩
  | tail hprev hs ih => exact inv6_step hm hprev hs ih

-- ===========================================================================
-- Concrete trace derivations
-- ===========================================================================

theorem hpFailDq : FailP (executeSQLTool_run dq) := by
  show execLooksError (executeSQLTool_run dq) = true
  decide

theorem d_reach4 : Reachable false FailP (.planning, d0) (.execute_sql, d4) :=
  Reachable.tail (Reachable.tail (Reachable.tail (Reachable.tail Reachable.refl
    (Step.planning d0 "")) (Step.search_columns d1 c1oCol))
    (Step.find_paths d2 ⟨[], []⟩)) (Step.generate_sql d3 c1oGen)

theorem d_reach9 : Reachable false FailP (.planning, d0) (.answer, d9) :=
  Reachable.tail (Reachable.tail (Reachable.tail (Reachable.tail (Reachable.tail
    d_reach4 (Step.execute_sql d4 dq hpFailDq)) (Step.generate_sql d5 c1oGen))
    (Step.execute_sql d6 dq hpFailDq)) (Step.generate_sql d7 c1oGen))
    (Step.execute_sql d8 dq hpFailDq)

theorem d_reach_done : Reachable false FailP (.planning, d0) (.done, d10) :=
  Reachable.tail d_reach9 (Step.answer d9 "could not run the query")

-- ===========================================================================
-- Claim theorems
-- ===========================================================================

/-- C1 (amended): in a run with human interaction disabled and
`maxIterations ≥ 1`, the iteration counter starts at 0 and never exceeds
`maxIterations` in any reachable state; along every step the counter is
monotone and the SQL history only grows, the counter increments by exactly
one and exactly one SQL string is appended on a generation pass, and no
other node changes either. -/
theorem C1_iteration_bounded (q sc : String) (m : Nat) (P : List Row → Prop)
    (hm : 1 ≤ m) :
    (initialState q sc m).iteration = 0
    ∧ (∀ c : Node × AgentState,
        Reachable false P (.planning, initialState q sc m) c →
        c.2.iteration ≤ c.2.max_iterations)
    ∧ (∀ (en : Bool) (c c' : Node × AgentState), Step en P c c' →
        (c.2.iteration ≤ c'.2.iteration ∧
          ∃ t, c'.2.sql_queries = c.2.sql_queries ++ t)
        ∧ (c.1 = Node.generate_sql →
            c'.2.iteration = c.2.iteration + 1 ∧
            c'.2.sql_queries = c.2.sql_queries ++ [c'.2.sql_query])
        ∧ (c.1 ≠ Node.generate_sql →
            c'.2.iteration = c.2.iteration ∧
            c'.2.sql_queries = c.2.sql_queries)) :=
  ⟨rfl, fun _ hr => (iterInv_reachable hm hr).1,
    fun _ _ _ h => step_iteration_effects h⟩

/-- C1 counterexample: the claim as frozen fails on the code.  With
`max_iterations = 0` the very first generation pass pushes the counter to
1 > 0, and with human interaction enabled the confirmation loop re-enters
generation, pushing the counter to 2 > 1 within one run. -/
theorem C1_counterexample :
    (Reachable false (fun _ => True) (.planning, c1s0) (.execute_sql, c1s4)
      ∧ c1s4.iteration = 1 ∧ c1s4.max_iterations = 0)
    ∧ (Reachable true (fun _ => True) (.planning, c1b0) (.human_interaction, c1b7)
      ∧ c1b7.iteration = 2 ∧ c1b7.max_iterations = 1) := by
  constructor
  · refine ⟨?_, rfl, rfl⟩
    exact Reachable.tail (Reachable.tail (Reachable.tail (Reachable.tail
      Reachable.refl (Step.planning c1s0 "")) (Step.search_columns c1s1 c1oCol))
      (Step.find_paths c1s2 ⟨[], []⟩)) (Step.generate_sql c1s3 c1oGen)
  · refine ⟨?_, rfl, rfl⟩
    exact Reachable.tail (Reachable.tail (Reachable.tail (Reachable.tail
      (Reachable.tail (Reachable.tail (Reachable.tail Reachable.refl
      (Step.planning c1b0 "")) (Step.human_interaction c1b1))
      (Step.search_values c1b2 ⟨"NONE", []⟩)) (Step.generate_sql c1b3 c1oGen))
      (Step.human_interaction c1b4)) (Step.search_values c1b5 ⟨"NONE", []⟩))
      (Step.generate_sql c1b6 c1oGen)

/-- C1 witness: the bound instantiated on a concrete reachable state of a
cap-3 run. -/
theorem C1_witness : d4.iteration ≤ d4.max_iterations :=
  (C1_iteration_bounded "q" "sch" 3 FailP (by decide)).2.1 (.execute_sql, d4)
    d_reach4

/-- C2 (amended): `find_shortest_path` returns the empty sequence only for
present-but-disconnected endpoints; when either endpoint is absent from
the graph (whether the identifier is malformed or simply names no column)
the call raises `NodeNotFound` instead of returning empty. -/
theorem C2_no_path_behavior (G : Graph) (a b : String) :
    (a ∈ G.nodes → b ∈ G.nodes → ¬ Connected G a b →
      find_shortest_path G a b = .ok [])
    ∧ ((a ∉ G.nodes ∨ b ∉ G.nodes) →
      find_shortest_path G a b = .error .nodeNotFound) :=
  ⟨fun ha hb hn => fsp_disconnected ha hb hn, fun h => fsp_absent h⟩

/-- C2 counterexample: `c.z` is a well-formed `table.column` identifier
absent from the graph, and the call raises instead of returning the empty
sequence. -/
theorem C2_counterexample :
    find_shortest_path g2w "c.z" "a.x" = .error .nodeNotFound
    ∧ ¬ ∃ p, find_shortest_path g2w "c.z" "a.x" = .ok p := by
  refine ⟨rfl, ?_⟩
  rintro ⟨p, hp⟩
  rw [show find_shortest_path g2w "c.z" "a.x" = .error .nodeNotFound from rfl] at hp
  exact Except.noConfusion hp

/-- C2 witness: the amended behavior at concrete inputs — empty sequence
for a disconnected present pair, error for an absent endpoint. -/
theorem C2_witness :
    find_shortest_path g2w "a.x" "b.y" = .ok []
    ∧ find_shortest_path g2w "c.z" "a.x" = .error .nodeNotFound := by
  constructor
  · exact (C2_no_path_behavior g2w "a.x" "b.y").1 (by decide) (by decide)
      (not_connected_of_no_edges rfl (by decide))
  · exact (C2_no_path_behavior g2w "c.z" "a.x").2 (Or.inl (by decide))

/-- C3: for present, connected endpoints the path finder returns a genuine
path from `a` to `b` of minimal length among all paths (its length is the
BFS distance); for present but disconnected endpoints it returns the empty
sequence. -/
theorem C3_shortest_path_correct (G : Graph) (a b : String) (wf : G.WF)
    (ha : a ∈ G.nodes) (hb : b ∈ G.nodes) :
    (Connected G a b →
      ∃ p, find_shortest_path G a b = .ok p ∧ p.head? = some a ∧
        p.getLast? = some b ∧ chainAdjB G p = true ∧
        ∀ q, IsPathList G q a b → p.length ≤ q.length)
    ∧ (¬ Connected G a b → find_shortest_path G a b = .ok []) := by
  constructor
  · intro hcon
    obtain ⟨p, h1, ⟨h2, h3, h4⟩, h5⟩ := fsp_connected wf ha hb hcon
    exact ⟨p, h1, h2, h3, h4, h5⟩
  · exact fun h => fsp_disconnected ha hb h

/-- C3 witness: the shortest join path across the foreign key of the
two-table schema. -/
theorem C3_witness :
    ∃ p, find_shortest_path g3w "Player.team_id" "Team.name" = .ok p ∧
      p.head? = some "Player.team_id" ∧ p.getLast? = some "Team.name" ∧
      chainAdjB g3w p = true ∧
      ∀ q, IsPathList g3w q "Player.team_id" "Team.name" → p.length ≤ q.length :=
  (C3_shortest_path_correct g3w "Player.team_id" "Team.name"
    ⟨by decide, by decide⟩ (by decide) (by decide)).1
    ⟨["Player.team_id", "Team.id", "Team.name"], by decide, by decide, by decide⟩

/-- C4: every returned value contains the query as a case-insensitive
substring, the ranked list is sorted by non-increasing BM25 score, at most
`limit` results are returned, and an empty pre-filter yields the empty
result (no unranked fallback). -/
theorem C4_search_values_spec (db : SVDatabase) (query : String)
    (table? column? : Option String) (limit : Nat) (scores : Nat → ℚ) :
    (∀ r ∈ search_values db query table? column? limit scores,
        subS (lowerS query) (lowerS r.contents) = true)
    ∧ (search_values db query table? column? limit scores).length ≤ limit
    ∧ (svCandidates db query table? column? = [] →
        search_values db query table? column? limit scores = [])
    ∧ (search_values_scored db query table? column? scores).Pairwise
        (fun x y => y.score ≤ x.score)
    ∧ search_values db query table? column? limit scores =
        ((search_values_scored db query table? column? scores).take limit).map
          (fun c => ⟨c.contents, c.table, c.column⟩) := by
  have heq := search_values_take_eq db query table? column? limit scores
  refine ⟨?_, ?_, ?_, scored_sorted db query table? column? scores, heq⟩
  · intro r hr
    rw [heq] at hr
    simp only [List.mem_map] at hr
    obtain ⟨x, hx, hxr⟩ := hr
    have hx' : x ∈ search_values_scored db query table? column? scores :=
      (List.take_sublist limit _).subset hx
    obtain ⟨cc, hcc, hcon⟩ := scored_mem hx'
    have hsub := svCandidates_sub hcc
    rw [← hxr]
    show subS (lowerS query) (lowerS x.contents) = true
    rw [hcon]
    exact hsub
  · rw [heq]
    simp only [List.length_map, List.length_take]
    exact inf_le_left
  · intro h
    rw [heq]
    unfold search_values_scored
    rw [h]
    simp

/-- C4 witness: a query matching no stored value yields the empty result. -/
theorem C4_witness :
    search_values c4db "zz" none none 2 (fun _ => 0) = [] :=
  (C4_search_values_spec c4db "zz" none none 2 (fun _ => 0)).2.2.1 (by decide)

/-- C5: a `no such column` execution error with iterations remaining, and
not on a human-gated last attempt, routes back to the column-search node;
the execution node and this routing leave the iteration counter
unchanged. -/
theorem C5_retry_routes_to_column_search (en : Bool) (s : AgentState)
    (herr : subS "no such column" s.execution_error = true)
    (hit : s.iteration < s.max_iterations)
    (hlast : ¬ (en = true ∧ s.iteration = s.max_iterations - 1)) :
    should_retry_or_finish en s = .search_columns
    ∧ ∀ (s' : AgentState) (dbq : Except String (List Row)),
        (sql_execution_node s' dbq).iteration = s'.iteration := by
  have hlow : subS "no such column" (lowerS s.execution_error) = true :=
    subS_lower (by decide) herr
  have hne : s.execution_error ≠ "" := subS_ne_empty (by decide) herr
  constructor
  · unfold should_retry_or_finish
    rw [if_pos ⟨hne, hit⟩]
    have hh : (en && decide (s.iteration = s.max_iterations - 1)) = false := by
      cases en
      · rfl
      · simp only [Bool.true_and, decide_eq_false_iff_not]
        intro h
        exact hlast ⟨rfl, h⟩
    rw [if_neg (by simp [hh]), if_pos hlow]
  · intro s' dbq
    simp

/-- C5 witness: the routing decision at a concrete failed state. -/
theorem C5_witness : should_retry_or_finish false c5s = .search_columns :=
  (C5_retry_routes_to_column_search false c5s (by decide) (by decide)
    (by decide)).1

/-- C6: in a cap-3 run in which every execution attempt fails, the retry
decision after the 3rd generation routes to answer generation (never
terminating silently); every answer-node entry carries 3 attempts, and the
terminal state carries a non-empty final answer beginning with the
error-framing prefix and 3 recorded SQL attempts. -/
theorem C6_budget_exhaustion (q sc : String) (c : Node × AgentState)
    (hr : Reachable false FailP (.planning, initialState q sc 3) c) :
    (c.1 = Node.execute_sql →
      ∀ dbq : Except String (List Row), FailP (executeSQLTool_run dbq) →
        c.2.iteration = 3 →
        should_retry_or_finish false (sql_execution_node c.2 dbq) = .answer)
    ∧ (c.1 = Node.answer → c.2.sql_queries.length = 3)
    ∧ (c.1 = Node.done →
        c.2.final_answer ≠ "" ∧
        startsS "I encountered an error: " c.2.final_answer = true ∧
        c.2.sql_queries.length = 3) := by
  obtain ⟨hlen, hmax⟩ := lenEq_reachable hr
  have hinv := inv6_reachable (by decide) hr
  refine ⟨?_, ?_, ?_⟩
  · intro _ dbq hp hit3
    have he' : (sql_execution_node c.2 dbq).execution_error ≠ "" :=
      exec_node_error_ne hp
    have hrn : (sql_execution_node c.2 dbq).execution_result = none := by
      rcases exec_node_cases c.2 dbq with ⟨_, hr0, _⟩ | ⟨_, _, hr0, _⟩ | ⟨_, hm0, _, _⟩
      · exact hr0.trans hinv.1
      · exact hr0
      · rw [hp] at hm0
        cases hm0
    have htr : resultTruthy (sql_execution_node c.2 dbq).execution_result = false := by
      rw [hrn]
      rfl
    rcases retry_fail_routes he' htr with ⟨hlt, _⟩ | ⟨_, h0⟩
    · exfalso
      have e1 : (sql_execution_node c.2 dbq).iteration = c.2.iteration := by simp
      have e2 : (sql_execution_node c.2 dbq).max_iterations = c.2.max_iterations := by
        simp
      omega
    · exact h0
  · intro hca
    have h3 : c.2.iteration = c.2.max_iterations := (hinv.2.1 hca).2
    omega
  · intro hcd
    obtain ⟨h1, h2, h3⟩ := hinv.2.2 hcd
    exact ⟨h2, h1, by omega⟩

/-- C6 witness: the terminal state of a concrete all-failing cap-3 run. -/
theorem C6_witness :
    d10.final_answer ≠ ""
    ∧ startsS "I encountered an error: " d10.final_answer = true
    ∧ d10.sql_queries.length = 3 :=
  (C6_budget_exhaustion "q" "sch" (.done, d10) d_reach_done).2.2 rfl

/-- C7: when the structured-response parse pipeline fails, the generation
node does not fail; it stores the sentinel rationale, an empty path
selection, and the raw trimmed completion with code fences stripped as the
SQL. -/
theorem C7_parse_fallback (s : AgentState) (o : GenOracle)
    (hfail : o.parse (trimS o.response) = none) :
    (sql_generation_node s o).path_selection_reasoning =
      "Failed to parse structured response"
    ∧ (sql_generation_node s o).selected_path_indices = []
    ∧ (sql_generation_node s o).sql_query = fenceClean (trimS o.response) := by
  unfold sql_generation_node
  dsimp only
  rw [hfail]
  exact ⟨rfl, rfl, rfl⟩

/-- C7 witness: a fenced, unparseable completion falls back to the
stripped SQL text with the sentinel rationale. -/
theorem C7_witness :
    (sql_generation_node (initialState "q" "sch" 3) c7o).sql_query = "SELECT 1"
    ∧ (sql_generation_node (initialState "q" "sch" 3) c7o).path_selection_reasoning =
        "Failed to parse structured response"
    ∧ (sql_generation_node (initialState "q" "sch" 3) c7o).selected_path_indices = [] := by
  have h := C7_parse_fallback (initialState "q" "sch" 3) c7o rfl
  refine ⟨?_, h.1, h.2.1⟩
  rw [h.2.2]
  decide

/-- C8: in every reachable state at most one of `execution_result` and
`execution_error` is non-empty; the execution node stores the result and
clears the error on success, clears the result and stores the error text
on an error-marked execution, and no other node changes either field. -/
theorem C8_result_error_exclusive (en : Bool) (P : List Row → Prop)
    (q sc : String) (m : Nat) (c : Node × AgentState)
    (hr : Reachable en P (.planning, initialState q sc m) c) :
    (c.2.execution_result = none ∨ c.2.execution_error = "")
    ∧ (∀ (s : AgentState) (dbq : Except String (List Row)),
        s.sql_query ≠ "" → execLooksError (executeSQLTool_run dbq) = true →
        (sql_execution_node s dbq).execution_result = none ∧
        (sql_execution_node s dbq).execution_error =
          pyStrRows (executeSQLTool_run dbq))
    ∧ (∀ (s : AgentState) (dbq : Except String (List Row)),
        s.sql_query ≠ "" → execLooksError (executeSQLTool_run dbq) = false →
        (sql_execution_node s dbq).execution_result =
          some (executeSQLTool_run dbq) ∧
        (sql_execution_node s dbq).execution_error = "")
    ∧ (∀ (s : AgentState) (o : String),
        (planning_node s o).execution_result = s.execution_result ∧
        (planning_node s o).execution_error = s.execution_error)
    ∧ (∀ (s : AgentState) (o : ColOracle),
        (column_search_node s o).execution_result = s.execution_result ∧
        (column_search_node s o).execution_error = s.execution_error)
    ∧ (∀ (s : AgentState) (o : ValOracle),
        (value_search_node s o).execution_result = s.execution_result ∧
        (value_search_node s o).execution_error = s.execution_error)
    ∧ (∀ (s : AgentState) (o : PathOracle),
        (path_finding_node s o).execution_result = s.execution_result ∧
        (path_finding_node s o).execution_error = s.execution_error)
    ∧ (∀ (s : AgentState) (o : GenOracle),
        (sql_generation_node s o).execution_result = s.execution_result ∧
        (sql_generation_node s o).execution_error = s.execution_error)
    ∧ (∀ (s : AgentState) (o : String),
        (answer_generation_node s o).execution_result = s.execution_result ∧
        (answer_generation_node s o).execution_error = s.execution_error)
    ∧ (∀ s : AgentState,
        (human_interaction_node s).execution_result = s.execution_result ∧
        (human_interaction_node s).execution_error = s.execution_error) := by
  refine ⟨(mutInv_reachable hr).1, ?_, ?_, fun s o => ⟨by simp, by simp⟩,
    fun s o => ⟨by simp, by simp⟩, fun s o => ⟨by simp, by simp⟩,
    fun s o => ⟨by simp, by simp⟩, fun s o => ⟨by simp, by simp⟩,
    fun s o => ⟨by simp, by simp⟩, fun s => ⟨by simp, by simp⟩⟩
  · intro s dbq h0 h1
    rcases exec_node_cases s dbq with ⟨he0, _, _⟩ | ⟨_, _, hr0, he0⟩ | ⟨_, hm0, _, _⟩
    · exact absurd he0 h0
    · exact ⟨hr0, he0⟩
    · rw [h1] at hm0
      cases hm0
  · intro s dbq h0 h1
    rcases exec_node_cases s dbq with ⟨he0, _, _⟩ | ⟨_, hm0, _, _⟩ | ⟨_, _, hr0, he0⟩
    · exact absurd he0 h0
    · rw [h1] at hm0
      cases hm0
    · exact ⟨hr0, he0⟩

/-- C8 witness: mutual exclusion at a concrete reachable post-execution
state. -/
theorem C8_witness : d9.execution_result = none ∨ d9.execution_error = "" :=
  (C8_result_error_exclusive false FailP "q" "sch" 3 (.answer, d9) d_reach9).1

/-- C9: the column-search node resets `needs_value_search` and
`needs_path_finding` exactly on a retry (non-empty `execution_error` on
entry), leaves them at their prior values otherwise, and in every case
clears `needs_column_search` and replaces `relevant_columns` with the new
search results. -/
theorem C9_column_search_flags (s : AgentState) (o : ColOracle) :
    (s.execution_error ≠ "" →
      (column_search_node s o).needs_value_search = false ∧
      (column_search_node s o).needs_path_finding = false)
    ∧ (s.execution_error = "" →
      (column_search_node s o).needs_value_search = s.needs_value_search ∧
      (column_search_node s o).needs_path_finding = s.needs_path_finding)
    ∧ (column_search_node s o).needs_column_search = false
    ∧ (column_search_node s o).relevant_columns = columnSearchResults o := by
  refine ⟨fun h => ⟨?_, ?_⟩, fun h => ⟨?_, ?_⟩, rfl, rfl⟩
  · show (if s.execution_error = "" then s.needs_value_search else false) = false
    rw [if_neg h]
  · show (if s.execution_error = "" then s.needs_path_finding else false) = false
    rw [if_neg h]
  · show (if s.execution_error = "" then s.needs_value_search else false) =
      s.needs_value_search
    rw [if_pos h]
  · show (if s.execution_error = "" then s.needs_path_finding else false) =
      s.needs_path_finding
    rw [if_pos h]

/-- C9 witness: the flag reset on a retry entry and the frame on a
first-pass entry, at concrete states. -/
theorem C9_witness :
    (column_search_node c9sErr c1oCol).needs_value_search = false
    ∧ (column_search_node c9sOk c1oCol).needs_value_search =
        c9sOk.needs_value_search :=
  ⟨((C9_column_search_flags c9sErr c1oCol).1 (by decide)).1,
    ((C9_column_search_flags c9sOk c1oCol).2.1 rfl).1⟩

/-- C10: `ExecuteSQLTool._run` never raises: a raised underlying query
becomes a one-tuple error row beginning with `Error: `, results beyond 100
rows are truncated to the first 100 plus one marker tuple, smaller results
pass through unchanged, and the output never has more than 101 rows. -/
theorem C10_execute_tool_spec (outcome : Except String (List Row)) :
    (∀ e, outcome = .error e →
      executeSQLTool_run outcome = [["Error: " ++ e]] ∧
      startsS "Error: " ("Error: " ++ e) = true)
    ∧ (∀ rows, outcome = .ok rows → rows.length > 100 →
        executeSQLTool_run outcome = rows.take 100 ++ [["... (truncated)"]])
    ∧ (∀ rows, outcome = .ok rows → rows.length ≤ 100 →
        executeSQLTool_run outcome = rows)
    ∧ (executeSQLTool_run outcome).length ≤ 101 := by
  refine ⟨?_, ?_, ?_, ?_⟩
  · intro e he
    subst he
    exact ⟨rfl, startsS_append _ _⟩
  · intro rows hrw hlen
    subst hrw
    unfold executeSQLTool_run
    dsimp only
    rw [if_pos hlen]
  · intro rows hrw hlen
    subst hrw
    unfold executeSQLTool_run
    dsimp only
    rw [if_neg (by omega)]
  · cases outcome with
    | error e => simp [executeSQLTool_run]
    | ok rows =>
      unfold executeSQLTool_run
      dsimp only
      by_cases h : rows.length > 100
      · rw [if_pos h]
        simp only [List.length_append, List.length_take, List.length_singleton]
        omega
      · rw [if_neg h]
        omega

/-- C10 witness: the error wrapping at a concrete failing query outcome. -/
theorem C10_witness :
    executeSQLTool_run (.error "no such table: Foo") =
      [["Error: no such table: Foo"]] :=
  ((C10_execute_tool_spec (.error "no such table: Foo")).1
    "no such table: Foo" rfl).1
